import Mathlib

/-!
# PokeFarm-3D — verification of the simulation core

Shallow embedding of the simulation core of `src/services/game.ts` and the
data model of `src/unnamed/part_000` (the repository's `types.ts`).

Conventions of the embedding:
* JavaScript numbers are modelled by `ℚ` (every JS double is a rational);
  `Math.random()` is modelled by an explicit stream of rationals (`Rng`),
  consumed in exactly the places the source calls `Math.random()`.
* Irrational library functions (`Math.hypot`, `Math.cos`, `Math.sin`,
  `Math.atan2`, `Math.PI`) are abstracted into a `MathOps` parameter; every
  theorem quantifies over it, so the theorems hold in particular for the
  real-number instance the browser computes with.
* The tables of `src/constants.ts` (which is not part of the provided
  sources: `CONFIG`, `POKEMON_ABILITIES`, `POKEMON_LIFESPANS`,
  `POKEMON_EVOLUTIONS`) are abstracted into explicit parameters.
* Mutation of the single shared game state is modelled by explicit state
  passing; object identity is tracked through the `id` fields, which the
  source generates freshly for every object.
-/

namespace PokeFarm

/-- A 2-D point, as the `{x, y}` records of the source. -/
structure Pt where
  x : ℚ
  y : ℚ
deriving DecidableEq

/-- `clamp` from `src/services/game.ts` line 4:
`Math.max(a, Math.min(b, v))`. -/
def clamp (v a b : ℚ) : ℚ := max a (min b v)

/-- One crossing test of the even–odd ray cast of `isPointInPolygon`
(`src/services/game.ts` lines 102-113).  The division is only evaluated when
`(yi > y) ≠ (yj > y)`, exactly as the short-circuiting `&&` of the source. -/
def edgeCrosses (point pi pj : Pt) : Bool :=
  if (decide (pi.y > point.y)) ≠ (decide (pj.y > point.y)) then
    decide (point.x < (pj.x - pi.x) * (point.y - pi.y) / (pj.y - pi.y) + pi.x)
  else false

/-- `isPointInPolygon(point, polygon)` (`src/services/game.ts` lines 102-113):
even–odd ray casting over the implicitly closed ring, pairing each vertex `i`
with its predecessor `j` (`j = n-1` for `i = 0`). -/
def isPointInPolygon (point : Pt) (polygon : List Pt) : Bool :=
  let n := polygon.length
  (List.range n).foldl
    (fun isInside i =>
      let vi := polygon.getD i ⟨0, 0⟩
      let vj := polygon.getD ((i + n - 1) % n) ⟨0, 0⟩
      if edgeCrosses point vi vj then !isInside else isInside)
    false

/-! ## Random stream -/

/-- The stream of `Math.random()` results.  An exhausted stream yields `0`. -/
def Rng := List ℚ

/-- Draw the next `Math.random()` value. -/
def rnext : Rng → ℚ × Rng
  | [] => (0, [])
  | q :: r => (q, r)

/-- `rint(min, max)` (`src/unnamed/part_000` line 2):
`Math.floor(Math.random() * (max - min + 1)) + min`, with the draw threaded
explicitly. -/
def rintR (rng : Rng) (lo hi : ℚ) : ℚ × Rng :=
  let (q, rng) := rnext rng
  (((⌊q * (hi - lo + 1)⌋ : Int) : ℚ) + lo, rng)

/-! ## Inventory and Player (`src/unnamed/part_000` lines 14-60) -/

/-- The sparse inventory: a JS object keyed by item name, modelled as an
association list in insertion order. -/
abbrev Inventory := List (String × Int)

/-- `inventory[key] || 0`. -/
def invGet (inv : Inventory) (k : String) : Int :=
  ((inv.find? (fun e => e.1 == k)).map Prod.snd).getD 0

/-- `inventory[key] = v`: update in place, or append a new key. -/
def invSet (inv : Inventory) (k : String) (v : Int) : Inventory :=
  if inv.any (fun e => e.1 == k) then
    inv.map (fun e => if e.1 == k then (k, v) else e)
  else inv ++ [(k, v)]

/-- `delete inventory[key]`. -/
def invDelete (inv : Inventory) (k : String) : Inventory :=
  inv.filter (fun e => e.1 != k)

/-- `PlayerSkills` (`src/unnamed/part_000` lines 7-12). -/
structure PlayerSkills where
  gerente : Nat
  sortudo : Nat
  tratador : Nat
  treinador : Nat
deriving DecidableEq

/-- `Player` (`src/unnamed/part_000` lines 14-60), with its constructor
defaults. -/
structure Player where
  name : String := "Fazendeiro"
  profilePictureUrl : Option String := none
  energy : ℚ := 100
  maxEnergy : ℚ := 100
  money : ℚ := 200
  inventory : Inventory :=
    [("wood", 10), ("stone", 5), ("seedGraoBaga", 5), ("seedCafeBaga", 3)]
  level : Nat := 1
  experience : ℚ := 0
  experienceToNextLevel : ℚ := 250
  skills : PlayerSkills := ⟨0, 0, 0, 0⟩
  skillPoints : Nat := 0
  team : List String := []
deriving DecidableEq

/-- `Player.addItem` (`src/unnamed/part_000` lines 48-50). -/
def Player.addItem (p : Player) (item : String) (count : Int) : Player :=
  { p with inventory := invSet p.inventory item (invGet p.inventory item + count) }

/-- `Player.removeItem` (`src/unnamed/part_000` lines 52-59): decrement and
delete at `≤ 0`; returns whether the removal happened. -/
def Player.removeItem (p : Player) (item : String) (count : Int) : Player × Bool :=
  if invGet p.inventory item ≥ count then
    let newVal := invGet p.inventory item - count
    let inv := invSet p.inventory item newVal
    ({ p with inventory := if newVal ≤ 0 then invDelete inv item else inv }, true)
  else (p, false)

/-! ## CropPlot (`src/unnamed/part_000` lines 150-209) -/

inductive CropState where
  | empty
  | growing
  | mature
deriving DecidableEq

/-- `CropPlot`, with the field defaults of the class declaration. -/
structure CropPlot where
  id : String
  x : ℚ
  y : ℚ
  state : CropState := .empty
  type : Option String := none
  growthDays : ℚ := 0
  matureTimeInDays : ℚ := 1/2
  fertilized : Bool := false
  isWatered : Bool := false
  rotation : ℚ := 0
deriving DecidableEq

/-- `CropPlot.plant(seedType)` (`src/unnamed/part_000` lines 167-174). -/
def CropPlot.plant (plot : CropPlot) (seedType : String) : CropPlot :=
  { plot with state := .growing, type := some seedType, growthDays := 0,
              matureTimeInDays := 1/2, fertilized := false, isWatered := false }

/-- `this.type.replace('seed', '').toLowerCase()`. -/
def cropTypeOf (t : String) : String := (t.replace "seed" "").toLower

/-- `CropPlot.harvest(player)` (`src/unnamed/part_000` lines 176-193).
`rand` is the `Math.random()` draw of the double-yield roll.  The guard
`this.state === 'mature' && this.type` requires `type` to be a non-null,
non-empty string (JS truthiness). -/
def CropPlot.harvest (plot : CropPlot) (player : Player) (rand : ℚ) :
    CropPlot × Player × Option (String × Int) :=
  match plot.state, plot.type with
  | .mature, some t =>
    if t = "" then (plot, player, none)
    else
      let doubleChance : ℚ := if plot.fertilized then 15/100 else 5/100
      let yieldCount : Int := if rand < doubleChance then 2 else 1
      let cropType := cropTypeOf t
      ({ plot with state := .empty, type := none, growthDays := 0,
                   fertilized := false, isWatered := false },
       player.addItem cropType yieldCount, some (cropType, yieldCount))
  | _, _ => (plot, player, none)

/-- `CropPlot.water(bonusPercentage)` (`src/unnamed/part_000` lines 195-199).
The bonus argument is unused by the source body. -/
def CropPlot.water (plot : CropPlot) : CropPlot :=
  if plot.state = .growing ∧ plot.isWatered = false then
    { plot with isWatered := true }
  else plot

/-- `CropPlot.reset` (`src/unnamed/part_000` lines 201-207). -/
def CropPlot.reset (plot : CropPlot) : CropPlot :=
  { plot with state := .empty, type := none, growthDays := 0,
              fertilized := false, isWatered := false }

/-- The daily watered-flag pass of `processDailyProduction`
(`src/services/game.ts` lines 1045-1056): clear `isWatered`, then re-set it
on growing plots when it rains or storms. -/
def CropPlot.dailyWaterReset (plot : CropPlot) (rainOrStorm : Bool) : CropPlot :=
  let plot := { plot with isWatered := false }
  if rainOrStorm ∧ plot.state = .growing then { plot with isWatered := true }
  else plot

/-- Every mutation of a `CropPlot` present in the sources.  `fertilize` is
the assignment `plot.fertilized = true` of the Beedrill ability
(`src/services/game.ts` line 520) and of the fertilizer item handler
(line 2318); `dailyWaterReset` is the daily pass; the rest are the
`CropPlot` methods. -/
inductive CropOp where
  | plant (seedType : String)
  | water
  | fertilize
  | harvest (player : Player) (rand : ℚ)
  | dailyWaterReset (rainOrStorm : Bool)
  | reset
deriving DecidableEq

def applyCropOp (plot : CropPlot) : CropOp → CropPlot
  | .plant s => plot.plant s
  | .water => plot.water
  | .fertilize => { plot with fertilized := true }
  | .harvest player rand => (plot.harvest player rand).1
  | .dailyWaterReset r => plot.dailyWaterReset r
  | .reset => plot.reset

/-! ## The per-frame entry point, projected to the day-rollover logic
(`updateGame`, `src/services/game.ts` lines 1248-1272) -/

/-- The two fields of `GameState` the day-boundary logic touches. -/
structure DayState where
  day : Int
  lastProductionDate : String
deriving DecidableEq

/-- `updateGame(gs, dt)` (`src/services/game.ts` lines 1248-1272), projected
onto the day-rollover logic.  `cont` is the combined effect, at the given
`dt`, of the per-frame subsystems (`updatePlayer`, `updatePassiveIncome`,
`updatePokemons`, `updateWorld`) and `daily` the combined effect of the daily
block (`processDailyProduction`, `processDailySpawns`, `processSpecialSpawns`,
`updatePokemonDayNightCycle`).  None of those functions reads or writes
`gs.day` or `gs.lastProductionDate` (in the source, `gs.day` is written only
at line 1263 and in the explicit skip-day command at line 2382, and
`gs.lastProductionDate` only at lines 1264 and 2388), so they act on the
remaining state component `σ`.  `dateString` is the wall-clock-derived date
string computed at line 1260; it does not depend on `dt`. -/
def updateGame {σ : Type} (cont daily : σ → σ) (s : DayState × σ)
    (dateString : String) : (DayState × σ) × Bool :=
  let rest := cont s.2
  if s.1.lastProductionDate ≠ dateString then
    ((⟨s.1.day + 1, dateString⟩, daily rest), true)
  else ((s.1, rest), false)

/-- A sequence of `n` calls to `updateGame` under an unchanged wall-clock
date string, collecting each call's returned rollover flag. -/
def advanceCalls {σ : Type} (cont daily : σ → σ) (dateString : String) :
    Nat → DayState × σ → (DayState × σ) × List Bool
  | 0, s => (s, [])
  | n + 1, s =>
    let r := updateGame cont daily s dateString
    let rest := advanceCalls cont daily dateString n r.1
    (rest.1, r.2 :: rest.2)

/-! ## World data model (`src/unnamed/part_000` lines 80-148) -/

/-- `Building.storage` (`src/unnamed/part_000` lines 133-137). -/
structure BuildingStorage where
  pokemonKind : Option String := none
  revivingFossil : Option String := none
  revivalProgress : Option ℚ := none
deriving DecidableEq

/-- `Building` (`src/unnamed/part_000` lines 126-148). -/
structure Building where
  id : String
  type : String
  x : ℚ
  y : ℚ
  w : ℚ
  h : ℚ
  storage : BuildingStorage := {}
  rotation : ℚ := 0
deriving DecidableEq

/-- The wild-plant growth state (`'bush' | 'flower'`). -/
inductive PlantState where
  | bush
  | flower
deriving DecidableEq

/-- `Resource` (`src/unnamed/part_000` lines 98-124).  `spawnDay` and
`state` stay `none` unless the type is `wild_plant`. -/
structure Resource where
  id : String
  type : String
  x : ℚ
  y : ℚ
  size : ℚ
  shapeVariant : ℚ
  sizeVariant : ℚ
  spawnDay : Option Int := none
  state : Option PlantState := none
deriving DecidableEq

/-- The `Resource` constructor (`src/unnamed/part_000` lines 110-123):
draws the id suffix, the size (`Math.random() * 0.2 + 0.9`) and the two
variants (`rint(0, 2)`) from the random stream. -/
def mkResource (ty : String) (x y : ℚ) (day : Option Int) (rng : Rng) :
    Resource × Rng :=
  let (qid, rng) := rnext rng
  let (qsize, rng) := rnext rng
  let (sv, rng) := rintR rng 0 2
  let (zv, rng) := rintR rng 0 2
  ({ id := "res_" ++ toString qid, type := ty, x := x, y := y,
     size := qsize * (2/10) + 9/10, shapeVariant := sv, sizeVariant := zv,
     spawnDay := if ty = "wild_plant" then day else none,
     state := if ty = "wild_plant" then some .bush else none }, rng)

/-- `FertileZone` (`src/unnamed/part_000` lines 80-82). -/
inductive FertileZone where
  | circle (x y r : ℚ)
  | poly (points : List Pt) (center : Pt) (radius : ℚ)
deriving DecidableEq

/-- An entry of `world.specials` (river or quarry polygon). -/
structure SpecialZone where
  type : String
  points : List Pt
deriving DecidableEq

/-- An entry of `world.cosmeticElements`. -/
structure Cosmetic where
  type : String
  x : ℚ
  y : ℚ
  size : ℚ
  shapeVariant : ℚ
  sizeVariant : ℚ
deriving DecidableEq

/-- `FarmWorld` (`src/unnamed/part_000` lines 84-96). -/
structure FarmWorld where
  w : ℚ
  h : ℚ
  structs : List Building := []
  resources : List Resource := []
  specials : List SpecialZone := []
  fertileZones : List FertileZone := []
  cosmeticElements : List Cosmetic := []
deriving DecidableEq

/-- `isPositionInvalid(x, y, world, isFlying)`
(`src/services/game.ts` lines 136-150). -/
def isPositionInvalid (x y : ℚ) (world : FarmWorld)
    (isFlying : Bool := false) : Bool :=
  if isFlying then false
  else
    world.structs.any (fun s =>
        decide (s.type ≠ "river_area" ∧ x > s.x - 20 ∧ x < s.x + s.w + 20 ∧
          y > s.y - 20 ∧ y < s.y + s.h + 20))
      || world.specials.any (fun sp => isPointInPolygon ⟨x, y⟩ sp.points)

/-- The bounding box (`minX, minY, maxX, maxY`) computed by
`getRandomPointInRiver` (`src/services/game.ts` lines 117-123).  The source
folds from `±Infinity`; for a nonempty ring this is the min/max over the
vertices, which we compute by folding from the first vertex.  For an empty
ring the source's candidates are `NaN` and never inside the (empty) polygon;
we return a degenerate box, whose candidates are likewise never inside the
empty polygon. -/
def bboxOf : List Pt → ℚ × ℚ × ℚ × ℚ
  | [] => (0, 0, -1, -1)
  | p :: ps =>
    ps.foldl
      (fun b q => (min b.1 q.x, min b.2.1 q.y, max b.2.2.1 q.x, max b.2.2.2 q.y))
      (p.x, p.y, p.x, p.y)

/-- The rejection-sampling loop of `getRandomPointInRiver`
(`src/services/game.ts` lines 125-133): up to 100 attempts, each drawing a
candidate via `rint` over the bounding box. -/
def riverSearch (riverPts : List Pt) (bounds : ℚ × ℚ × ℚ × ℚ) :
    Nat → Rng → Option Pt × Rng
  | 0, rng => (none, rng)
  | fuel + 1, rng =>
    let (px, rng) := rintR rng bounds.1 bounds.2.2.1
    let (py, rng) := rintR rng bounds.2.1 bounds.2.2.2
    if isPointInPolygon ⟨px, py⟩ riverPts then (some ⟨px, py⟩, rng)
    else riverSearch riverPts bounds fuel rng

/-- `getRandomPointInRiver(world)` (`src/services/game.ts` lines 115-134). -/
def getRandomPointInRiver (world : FarmWorld) (rng : Rng) : Option Pt × Rng :=
  match world.specials.find? (fun s => s.type == "river") with
  | none => (none, rng)
  | some river => riverSearch river.points (bboxOf river.points) 100 rng

/-! ## Placement validation (`isPlacementAreaClear`,
`src/services/game.ts` lines 153-210) -/

/-- The `{clear, message}` result record. -/
structure PlacementResult where
  clear : Bool
  message : String
deriving DecidableEq

/-- The inner special-zones / fertile-zones test run for one check point
(`src/services/game.ts` lines 180-200): every special of type `quarry`
blocks any non-mine placement, every other special is treated as the river,
and only polygon-shaped fertile zones are tested. -/
def placementPointMsg (ty : Option String) (world : FarmWorld) (point : Pt) :
    Option String :=
  match world.specials.findSome? (fun sp =>
    if sp.type = "quarry" then
      if ty ≠ some "mine" ∧ isPointInPolygon point sp.points then
        some "Você não pode construir na área da pedreira."
      else none
    else
      if isPointInPolygon point sp.points then
        some "Você não pode construir sobre a água."
      else none) with
  | some m => some m
  | none =>
    world.fertileZones.findSome? (fun fz =>
      match fz with
      | .poly pts _ _ =>
        if isPointInPolygon point pts then
          some "Você não pode construir sobre solo fértil."
        else none
      | .circle _ _ _ => none)

/-- The part of `isPlacementAreaClear` after the mine/quarry gate
(`src/services/game.ts` lines 172-209): the 20-unit boundary padding, the
four corners plus the center against the specials and the polygon fertile
zones, and exact rectangle overlap against every structure other than
`river_area`, in the source's order. -/
def placementAfterMine (x y w h : ℚ) (world : FarmWorld)
    (ty : Option String) : PlacementResult :=
  let x1 := x
  let y1 := y
  let x2 := x + w
  let y2 := y + h
  if x1 < 20 ∨ x2 > world.w - 20 ∨ y1 < 20 ∨ y2 > world.h - 20 then
    ⟨false, "Você não pode construir fora da área da fazenda."⟩
  else
    let checkPoints : List Pt :=
      [⟨x1, y1⟩, ⟨x2, y1⟩, ⟨x1, y2⟩, ⟨x2, y2⟩, ⟨x1 + w / 2, y1 + h / 2⟩]
    match checkPoints.findSome? (placementPointMsg ty world) with
    | some m => ⟨false, m⟩
    | none =>
      match world.structs.findSome? (fun st =>
        if st.type ≠ "river_area" ∧ x1 < st.x + st.w ∧ x2 > st.x ∧
            y1 < st.y + st.h ∧ y2 > st.y then
          some "Você não pode construir aqui, o espaço está ocupado."
        else none) with
      | some m => ⟨false, m⟩
      | none => ⟨true, ""⟩

/-- `isPlacementAreaClear(x, y, w, h, world, type)`
(`src/services/game.ts` lines 153-210): a pure query over the world.  The
checks run in the source's order: the mine/quarry requirement first, then
`placementAfterMine`. -/
def isPlacementAreaClear (x y w h : ℚ) (world : FarmWorld)
    (ty : Option String) : PlacementResult :=
  let quarry := world.specials.find? (fun s => s.type == "quarry")
  let mineMsg : Option String :=
    if ty = some "mine" then
      match quarry with
      | none => some "Erro: Pedreira não encontrada no mapa."
      | some q =>
        if ¬ isPointInPolygon ⟨x + w / 2, y + h / 2⟩ q.points then
          some "A Mina deve ser construída sobre a área da pedreira."
        else none
    else none
  match mineMsg with
  | some m => ⟨false, m⟩
  | none => placementAfterMine x y w h world ty

/-! ## Creature data model (`src/unnamed/part_000` lines 211-262) -/

inductive Gender where
  | male
  | female
deriving DecidableEq

inductive AiState where
  | idle
  | moving
  | working
deriving DecidableEq

inductive TeleportState where
  | home
  | away
deriving DecidableEq

/-- A movement target `{x, y, id?}`. -/
structure MoveTarget where
  x : ℚ
  y : ℚ
  id : Option String := none
deriving DecidableEq

/-- `HappinessModifier = number | { value, daysLeft }`
(`src/unnamed/part_000` line 211). -/
inductive HMod where
  | flat (value : ℚ)
  | timed (value : ℚ) (daysLeft : ℚ)
deriving DecidableEq

/-- The signed contribution of a modifier (`typeof mod === 'number' ? mod :
mod.value`). -/
def HMod.value : HMod → ℚ
  | .flat v => v
  | .timed v _ => v

/-- `Pokemon` (`src/unnamed/part_000` lines 213-262), with the class field
defaults.  Optional fields (`Poder?`, `teleportState?`, …) are `Option`s. -/
structure Pokemon where
  id : String
  name : String
  kind : String
  x : ℚ
  y : ℚ
  isShiny : Bool
  gender : Gender
  age : ℚ := 0
  maxAge : ℚ := 100
  homeBuildingId : Option String := none
  cooldown : ℚ := 0
  target : Option MoveTarget := none
  aiState : AiState := .idle
  moveSpeed : ℚ := 30
  isSleeping : Bool := false
  Poder : Option ℚ := none
  teleportState : Option TeleportState := none
  teleportTimer : Option ℚ := none
  actionTimer : Option ℚ := none
  isImmortal : Bool := false
  scheduledDeathHour : Option ℚ := none
  torchicsCured : Option ℚ := none
  applesHarvested : Option ℚ := none
  happiness : ℚ := 50
  happinessModifiers : List (String × HMod) := []
  isNew : Bool := true
deriving DecidableEq

/-- The `Pokemon` constructor (`src/unnamed/part_000` lines 240-261):
draws the id suffix and — unless the species pins the gender — the 50/50
gender roll from the random stream.  `lifespans` is the
`POKEMON_LIFESPANS` table of `src/constants.ts` (not among the provided
sources), with the source's `|| 100` fallback. -/
def mkPokemonR (lifespans : String → Option ℚ) (kind : String) (x y : ℚ)
    (isShiny : Bool) (rng : Rng) : Pokemon × Rng :=
  let (qid, rng) := rnext rng
  let gr : Gender × Rng :=
    if kind = "Miltank" then (Gender.female, rng)
    else if kind = "Tauros" then (Gender.male, rng)
    else
      let (g, rng) := rnext rng
      (if g < 1/2 then Gender.male else Gender.female, rng)
  ({ id := "poke_" ++ toString qid, name := kind, kind := kind, x := x,
     y := y, isShiny := isShiny, gender := gr.1,
     maxAge := (lifespans kind).getD 100,
     torchicsCured :=
       if kind = "Happiny" ∨ kind = "Chansey" ∨ kind = "Blissey" then some 0
       else none,
     applesHarvested :=
       if kind = "Mankey" ∨ kind = "Primeape" ∨ kind = "Aipom" ∨
           kind = "Ambipom" then some 0
       else none }, gr.2)

/-- `calculateShinyChance(player)` (`src/services/game.ts` lines 930-934). -/
def calculateShinyChance (player : Player) : ℚ :=
  3/1000 + ([(0 : ℚ), 5/10000, 1/1000].getD player.skills.sortudo 0)

/-! ## Game state -/

/-- An entry of `gs.respawnQueue`: `{ type, timer }`. -/
structure RespawnItem where
  type : String
  timer : ℚ
deriving DecidableEq

/-- `WeatherType` (`src/unnamed/part_000`). -/
inductive Weather where
  | clear
  | rain
  | storm
  | harsh_sunlight
deriving DecidableEq

/-- The fields of `GameState` (`src/unnamed/part_000` lines 355-395) the
verified subsystems touch.  The remaining fields (camera, sprite cache,
tasks, alarms, …) are presentation or UI state outside the claims. -/
structure GameState where
  player : Player
  world : FarmWorld
  pokemons : List Pokemon := []
  cropPlots : List CropPlot := []
  gameTime : ℚ := 0
  day : Int := 1
  lastProductionDate : String := ""
  lastUpdateTimestamp : ℚ := 0
  dailySpawns : Inventory := []
  respawnQueue : List RespawnItem := []
  weatherToday : Weather := .clear
deriving DecidableEq

/-! ## Resource respawn (`updateWorld`, `src/services/game.ts`
lines 213-325) -/

/-- JS `s.endsWith(suffix)`, written on the character data so that it is
kernel-computable. -/
def strEndsWith (s suffix : String) : Bool := List.isSuffixOf suffix.data s.data

/-- Number of tree-type resources (`r.type.endsWith('_tree')`). -/
def countTrees (rs : List Resource) : Nat :=
  (rs.filter (fun r => strEndsWith r.type "_tree")).length

/-- The per-category caps `CONFIG.world.maxTrees` / `maxRocks` /
`maxWildPlants` of `src/constants.ts` (not among the provided sources). -/
structure WorldCaps where
  maxTrees : Nat
  maxRocks : Nat
  maxWildPlants : Nat

/-- The 50-attempt fertile-zone search of `updateWorld`
(`src/services/game.ts` lines 262-275). -/
def fertileLoop (world : FarmWorld) (pts : List Pt) (bounds : ℚ × ℚ × ℚ × ℚ) :
    Nat → Rng → Option (ℚ × ℚ) × Rng
  | 0, rng => (none, rng)
  | fuel + 1, rng =>
    let (cx, rng) := rintR rng bounds.1 bounds.2.2.1
    let (cy, rng) := rintR rng bounds.2.1 bounds.2.2.2
    if isPointInPolygon ⟨cx, cy⟩ pts ∧ ¬ isPositionInvalid cx cy world then
      (some (cx, cy), rng)
    else fertileLoop world pts bounds fuel rng

/-- The fallback do/while rejection sampling of `updateWorld`
(`src/services/game.ts` lines 278-286), with the source's post-loop
`attempts < 100` test folded into the returned option: the loop body always
runs at least once and stops on a valid position or once `attempts`
reaches 100; a position found on the 100th attempt is discarded by the
source's `if (attempts < 100)` test. -/
def fallbackSearch (world : FarmWorld) (w h : ℚ) :
    Nat → Nat → Rng → (ℚ × ℚ × Nat) × Rng
  | 0, attempts, rng => ((0, 0, attempts), rng)
  | fuel + 1, attempts, rng =>
    let (x, rng) := rintR rng 50 (w - 50)
    let (y, rng) := rintR rng 50 (h - 50)
    let attempts := attempts + 1
    if isPositionInvalid x y world ∧ attempts < 100 then
      fallbackSearch world w h fuel attempts rng
    else ((x, y, attempts), rng)

/-- The spawn-point selection of `updateWorld`
(`src/services/game.ts` lines 257-289): for trees, a 50% roll sends the
search into a random fertile zone first; otherwise (or on failure) the
unconstrained rejection sampling runs.  Returns `none` when no point was
found. -/
def trySpawnPoint (isTree : Bool) (world : FarmWorld) (rng : Rng) :
    Option (ℚ × ℚ) × Rng :=
  let fert : Option (ℚ × ℚ) × Rng :=
    if isTree then
      let (q, rng) := rnext rng
      if q < 1/2 ∧ world.fertileZones.length > 0 then
        let (zi, rng) := rintR rng 0 ((world.fertileZones.length : ℚ) - 1)
        match world.fertileZones.get? ⌊zi⌋.toNat with
        | some (.poly pts _ _) => fertileLoop world pts (bboxOf pts) 50 rng
        | _ => (none, rng)
      else (none, rng)
    else (none, rng)
  match fert with
  | (some pt, rng) => (some pt, rng)
  | (none, rng) =>
    let ((x, y, attempts), rng) := fallbackSearch world world.w world.h 100 0 rng
    if attempts < 100 then (some (x, y), rng) else (none, rng)

/-- The accumulator of the respawn pass: the evolving game state, the
random stream and the three running category counts (current counts plus
already-approved spawns). -/
structure RespawnPass where
  gs : GameState
  rng : Rng
  treeCount : Nat
  rockCount : Nat
  plantCount : Nat

/-- The spawn half of one respawn item (`src/services/game.ts`
lines 255-313): pick a point, roll the 10% apple-tree upgrade for oak/pine,
create the `Resource`, and run the Combee proximity spawn for trees.
`Math.hypot(dx, dy) < 80` is written as `dx² + dy² < 80²`, which is
equivalent.  The category count was already incremented by the caller. -/
def doSpawn (lifespans : String → Option ℚ) (a : RespawnPass)
    (itemType : String) (isTree : Bool) : RespawnPass :=
  let world := a.gs.world
  match trySpawnPoint isTree world a.rng with
  | (none, rng) => { a with rng := rng }
  | (some (x, y), rng) =>
    let tr : String × Rng :=
      if itemType = "oak_tree" ∨ itemType = "pine_tree" then
        let (q, rng) := rnext rng
        (if q < 1/10 then "apple_tree" else itemType, rng)
      else (itemType, rng)
    let typeToSpawn := tr.1
    let rng := tr.2
    if typeToSpawn = "" then { a with rng := rng }
    else
      let (newRes, rng) := mkResource typeToSpawn x y (some a.gs.day) rng
      let gs := { a.gs with world :=
        { world with resources := world.resources ++ [newRes] } }
      if strEndsWith typeToSpawn "_tree" then
        let combeeFamilyCount := (gs.pokemons.filter (fun p =>
          p.kind = "Combee" ∨ p.kind = "Vespiquen")).length
        if combeeFamilyCount < 3 ∧ invGet gs.dailySpawns "Combee" < 1 then
          let nearbyFlowers := gs.world.resources.filter (fun r =>
            r.type = "wild_plant" ∧ r.state = some .flower ∧
              (newRes.x - r.x) ^ 2 + (newRes.y - r.y) ^ 2 < 80 ^ 2)
          if nearbyFlowers.length ≥ 2 then
            let (q, rng) := rnext rng
            if q < 25/100 then
              let (qs, rng) := rnext rng
              let isShiny := qs < calculateShinyChance gs.player
              let (dx, rng) := rintR rng (-20) 20
              let (dy, rng) := rintR rng (-20) 20
              let (newP, rng) :=
                mkPokemonR lifespans "Combee" (newRes.x + dx) (newRes.y + dy)
                  isShiny rng
              let gs2 := { gs with
                pokemons := gs.pokemons ++ [newP]
                dailySpawns := invSet gs.dailySpawns "Combee"
                  (invGet gs.dailySpawns "Combee" + 1) }
              { a with rng := rng, gs := gs2 }
            else { a with rng := rng, gs := gs }
          else { a with rng := rng, gs := gs }
        else { a with rng := rng, gs := gs }
      else { a with rng := rng, gs := gs }

/-- One iteration of the respawn loop (`src/services/game.ts`
lines 230-316): the capacity gates in order (tree, rock, wild plant), the
spawn on success, and the re-arm with the fixed 10-second retry delay
(`item.timer = 10; gs.respawnQueue.push(item)`) on failure. -/
def processRespawnItem (caps : WorldCaps) (lifespans : String → Option ℚ)
    (a : RespawnPass) (item : RespawnItem) : RespawnPass :=
  let isTree := strEndsWith item.type "_tree"
  let isRock := item.type = "rock"
  let isPlant := item.type = "wild_plant"
  if isTree ∧ a.treeCount < caps.maxTrees then
    doSpawn lifespans { a with treeCount := a.treeCount + 1 } item.type isTree
  else if isRock ∧ a.rockCount < caps.maxRocks then
    doSpawn lifespans { a with rockCount := a.rockCount + 1 } item.type isTree
  else if isPlant ∧ a.plantCount < caps.maxWildPlants then
    doSpawn lifespans { a with plantCount := a.plantCount + 1 } item.type isTree
  else
    { a with gs := { a.gs with respawnQueue :=
        a.gs.respawnQueue ++ [{ type := item.type, timer := 10 }] } }

/-- The initial accumulator of the spawn pass (`src/services/game.ts`
lines 225-227): the current per-category resource counts. -/
def respawnInit (gs : GameState) (rng : Rng) : RespawnPass :=
  { gs := gs, rng := rng,
    treeCount := countTrees gs.world.resources,
    rockCount :=
      (gs.world.resources.filter (fun r => r.type = "rock")).length,
    plantCount :=
      (gs.world.resources.filter (fun r => r.type = "wild_plant")).length }

/-- `updateWorld(gs, dt)` (`src/services/game.ts` lines 213-325): tick every
queued ticket by `dt`, keep the unexpired ones, then run the capacity-gated
spawn pass over the expired ones. -/
def updateWorld (caps : WorldCaps) (lifespans : String → Option ℚ)
    (gs : GameState) (dt : ℚ) (rng : Rng) : GameState × Rng :=
  let ticked := gs.respawnQueue.map (fun item =>
    { item with timer := item.timer - dt })
  let remainingQueue := ticked.filter (fun item => item.timer > 0)
  let itemsToRespawn := ticked.filter (fun item => ¬ item.timer > 0)
  let gs2 := { gs with respawnQueue := remainingQueue }
  if itemsToRespawn.length > 0 then
    let a := itemsToRespawn.foldl (processRespawnItem caps lifespans)
      (respawnInit gs2 rng)
    (a.gs, a.rng)
  else (gs2, rng)

/-! ## Well-being system (`updatePokemonHappiness`,
`src/services/game.ts` lines 936-1040) -/

/-- The species type sets of `src/services/game.ts` lines 7-11. -/
def FIRE_TYPES : List String :=
  ["Charmander", "Charmeleon", "Charizard", "Growlithe", "Arcanine",
   "Torchic", "Combusken", "Blaziken", "Litwick", "Lampent", "Chandelure"]

def WATER_TYPES : List String :=
  ["Squirtle", "Wartortle", "Blastoise", "Lotad", "Lombre", "Ludicolo",
   "Goldeen", "Seaking", "Psyduck", "Magikarp", "Gyarados", "Lapras",
   "Omanyte", "Omastar", "Kabuto", "Kabutops", "Tirtouga", "Carracosta"]

def ELECTRIC_TYPES : List String :=
  ["Pichu", "Pikachu", "Raichu", "Mareep", "Flaaffy", "Ampharos"]

def PROTECTOR_TYPES : List String :=
  ["Growlithe", "Arcanine", "Meowth", "Persian", "Spearow", "Fearow"]

def PEST_TYPES : List String := ["Rattata", "Raticate", "Ekans", "Arbok"]

/-- `happinessModifiers[key] = v` on the modifier map (in-place update or
append, JS object semantics). -/
def modsSet (mods : List (String × HMod)) (k : String) (v : HMod) :
    List (String × HMod) :=
  if mods.any (fun e => e.1 == k) then
    mods.map (fun e => if e.1 == k then (k, v) else e)
  else mods ++ [(k, v)]

/-- `Σ (typeof mod === 'number' ? mod : mod.value)` over the map. -/
def modsSum (mods : List (String × HMod)) : ℚ :=
  (mods.map (fun e => e.2.value)).sum

/-- The sum of the modifier values whose key differs from `k`. -/
def modsSumExcept (k : String) (mods : List (String × HMod)) : ℚ :=
  ((mods.filter (fun e => e.1 ≠ k)).map (fun e => e.2.value)).sum

/-- Every "Picada de Ekans" entry of a modifier map is a timed modifier in
its final day (`daysLeft ≤ 1`).  This is the exact shape `applyEkansBite`
stores (`timed (-20) 1`) and the shape the decay step removes at the next
pass's entry, so the daily pass re-establishes this bound. -/
def biteExpiring (mods : List (String × HMod)) : Prop :=
  ∀ e ∈ mods, e.1 = "Picada de Ekans" →
    ∃ v d, e.2 = HMod.timed v d ∧ d ≤ 1

/-- An entry of the `POKEMON_ABILITIES` table of `src/constants.ts` (not
among the provided sources).  Optional numeric fields are `Option`s; the
source's `from`/`to` fields are renamed `fromItem`/`toItem` (`from` is a
Lean keyword). -/
structure Ability where
  type : String := ""
  cooldown : ℚ := 0
  bonus : ℚ := 0
  item : String := ""
  rate : Option ℚ := none
  passive_income_rate : Option ℚ := none
  huntChance : Option ℚ := none
  biteChance : Option ℚ := none
  chance : Option ℚ := none
  amount : Int := 0
  fromItem : String := ""
  toItem : String := ""
  items : List String := []

/-- Phase 1 of `updatePokemonHappiness` for one new arrival
(`src/services/game.ts` lines 944-958): home-mates of the new creature get
the one-shot "Novo Companheiro" modifiers (plus the same-species variant),
then the arrival's `isNew` flag is cleared. -/
def applyNewPokemonEvent (pokemons : List Pokemon) (newId : String) :
    List Pokemon :=
  match pokemons.find? (fun p => p.id == newId) with
  | none => pokemons
  | some newP =>
    let pokemons :=
      match newP.homeBuildingId with
      | none => pokemons
      | some home =>
        pokemons.map (fun (resident : Pokemon) =>
          if resident.homeBuildingId = some home ∧ resident.id ≠ newP.id then
            let mods :=
              if resident.kind = newP.kind then
                modsSet resident.happinessModifiers
                  "Novo Companheiro (Mesma Espécie)" (.timed 20 3)
              else resident.happinessModifiers
            { resident with
                happinessModifiers :=
                  modsSet mods "Novo Companheiro" (.timed 10 3) }
          else resident)
    pokemons.map (fun p =>
      if p.id == newId then { p with isNew := false } else p)

/-- The decay step of phase 2 (`src/services/game.ts` lines 962-977):
timed modifiers lose a day and are dropped at `daysLeft ≤ 1`; flat
modifiers survive only under the key "Bônus de Tratador". -/
def decayMods (mods : List (String × HMod)) : List (String × HMod) :=
  mods.foldl
    (fun acc (e : String × HMod) =>
      match e.2 with
      | .timed v d => if d > 1 then acc ++ [(e.1, HMod.timed v (d - 1))] else acc
      | .flat v =>
        if e.1 = "Bônus de Tratador" then acc ++ [(e.1, HMod.flat v)] else acc)
    []

/-- A conditional assignment `if (cond) mods[key] = value` of phase 3. -/
def condSet (c : Prop) [Decidable c] (mods : List (String × HMod))
    (k : String) (v : HMod) : List (String × HMod) :=
  if c then modsSet mods k v else mods

/-- The weather switch of phase 3 (`src/services/game.ts`
lines 1002-1015). -/
def weatherMods (weather : Weather) (kind : String)
    (mods : List (String × HMod)) : List (String × HMod) :=
  match weather with
  | .rain =>
    let m := condSet (WATER_TYPES.contains kind) mods "Bônus de Chuva" (.flat 10)
    condSet (FIRE_TYPES.contains kind) m "Mal-estar de Chuva" (.flat (-10))
  | .harsh_sunlight =>
    if FIRE_TYPES.contains kind then modsSet mods "Bônus de Sol Forte" (.flat 10)
    else modsSet mods "Desconforto do Sol" (.flat (-5))
  | .storm =>
    if ELECTRIC_TYPES.contains kind then
      modsSet mods "Bônus de Tempestade" (.flat 10)
    else modsSet mods "Estresse de Tempestade" (.flat (-5))
  | .clear => mods

/-- Phases 2-4 of `updatePokemonHappiness` for one creature
(`src/services/game.ts` lines 960-1026): decay timed modifiers, keep only
the flat "Bônus de Tratador", re-apply the farm-wide conditional and
weather modifiers, and recompute `happiness = clamp(50 + Σ, 0, 100)`. -/
def dailyModifierUpdate (hasProtector : Bool) (pestCount : Nat)
    (hasTauros hasBouffalant : Bool) (tratadorBonus : ℚ) (weather : Weather)
    (p : Pokemon) : Pokemon :=
  let mods := decayMods p.happinessModifiers
  let mods := condSet (hasProtector ∧ ¬ PROTECTOR_TYPES.contains p.kind)
    mods "Bônus de Proteção" (.flat 10)
  let mods := condSet (pestCount > 0 ∧ ¬ PEST_TYPES.contains p.kind)
    mods "Estresse de Praga" (.flat ((-5) * pestCount))
  let mods := condSet (p.kind = "Miltank" ∧ (hasTauros ∨ hasBouffalant))
    mods "Bônus de Companheirismo" (.flat 10)
  let mods := condSet (p.kind = "Tauros" ∧ hasBouffalant)
    mods "Rivalidade" (.flat (-10))
  let mods := condSet (p.kind = "Bouffalant" ∧ hasTauros)
    mods "Rivalidade" (.flat (-10))
  let mods := condSet (tratadorBonus > 0)
    mods "Bônus de Tratador" (.flat tratadorBonus)
  let mods := weatherMods weather p.kind mods
  { p with happinessModifiers := mods,
           happiness := clamp (50 + modsSum mods) 0 100 }

/-- One Ekans-family bite roll of the post-pass
(`src/services/game.ts` lines 1028-1039): on success, the first
non-sleeping Torchic-family home-mate gets the "Picada de Ekans" modifier.
The target's happiness is NOT recomputed. -/
def applyEkansBite (abilities : String → Option Ability)
    (acc : List Pokemon × Rng) (ekansId : String) : List Pokemon × Rng :=
  let ps := acc.1
  match ps.find? (fun p => p.id == ekansId) with
  | none => acc
  | some ekans =>
    let (q, rng) := rnext acc.2
    let bite :=
      match (abilities ekans.kind).bind (fun a => a.biteChance) with
      | some c => decide (q < c)
      | none => false
    if bite then
      match ps.find? (fun t =>
          ["Torchic", "Combusken", "Blaziken"].contains t.kind &&
            !t.isSleeping && t.homeBuildingId == ekans.homeBuildingId) with
      | none => (ps, rng)
      | some target =>
        (ps.map (fun t =>
          if t.id == target.id then
            { t with happinessModifiers :=
                modsSet t.happinessModifiers "Picada de Ekans" (.timed (-20) 1) }
          else t), rng)
    else (ps, rng)

/-- `updatePokemonHappiness(gs)` (`src/services/game.ts` lines 936-1040). -/
def updatePokemonHappiness (abilities : String → Option Ability)
    (gs : GameState) (rng : Rng) : GameState × Rng :=
  let hasProtector := gs.pokemons.any (fun p => PROTECTOR_TYPES.contains p.kind)
  let pestCount := (gs.pokemons.filter (fun p => PEST_TYPES.contains p.kind)).length
  let hasTauros := gs.pokemons.any (fun p => p.kind == "Tauros")
  let hasBouffalant := gs.pokemons.any (fun p => p.kind == "Bouffalant")
  let tratadorBonus := ([0, 2, 4, 6, 8, 10] : List ℚ).getD gs.player.skills.tratador 0
  let newIds := (gs.pokemons.filter (fun p => p.isNew)).map (fun p => p.id)
  let pokemons1 := newIds.foldl applyNewPokemonEvent gs.pokemons
  let pokemons2 := pokemons1.map (dailyModifierUpdate hasProtector pestCount
    hasTauros hasBouffalant tratadorBonus gs.weatherToday)
  let ekansIds := (pokemons2.filter (fun p =>
    (p.kind == "Ekans" || p.kind == "Arbok") && !p.isSleeping)).map
    (fun p => p.id)
  let result := ekansIds.foldl (applyEkansBite abilities) (pokemons2, rng)
  ({ gs with pokemons := result.1 }, result.2)

/-- The tree-type tickets of a respawn queue. -/
def treeTicketsOf (q : List RespawnItem) : List RespawnItem :=
  q.filter (fun i => strEndsWith i.type "_tree")

/-! ## Evolution (`handleEvolvePokemon`, `src/services/game.ts`
lines 2205-2244) -/

/-- In-place mutation of the first list element matching `pred`: JS
`list.find(...)` followed by field assignments on the found object. -/
def updateFirst {α : Type} (pred : α → Bool) (f : α → α) : List α → List α
  | [] => []
  | a :: rest => if pred a then f a :: rest else a :: updateFirst pred f rest

/-- The field updates `handleEvolvePokemon` performs on the found creature
(`src/services/game.ts` lines 2216-2221): rename when the display name still
equals the old species, re-species, reset `age`, and re-read `maxAge` from
the lifespan table with the source's `|| 100` fallback. -/
def evolvePokemonFields (lifespans : String → Option ℚ)
    (evolutionTarget : String) (p : Pokemon) : Pokemon :=
  { p with
    name := if p.name = p.kind then evolutionTarget else p.name
    kind := evolutionTarget
    age := 0
    maxAge := (lifespans evolutionTarget).getD 100 }

/-- `handleEvolvePokemon(pokemonId)` (`src/services/game.ts`
lines 2205-2244); the sprite-cache preloading, toast and notification are
presentation effects and are not modelled.  `evolutions` is the
`POKEMON_EVOLUTIONS` table and `lifespans` the `POKEMON_LIFESPANS` table of
`src/constants.ts` (not among the provided sources). -/
def handleEvolvePokemon (evolutions : String → Option String)
    (lifespans : String → Option ℚ) (gs : GameState) (pokemonId : String) :
    GameState :=
  match gs.pokemons.find? (fun p => p.id == pokemonId) with
  | none => gs
  | some pokemon =>
    match evolutions pokemon.kind with
    | none => gs
    | some evolutionTarget =>
      let rem := gs.player.removeItem "evolution_stone" 1
      if rem.2 then
        { gs with
          player := rem.1
          pokemons := updateFirst (fun p => p.id == pokemonId)
            (evolvePokemonFields lifespans evolutionTarget) gs.pokemons }
      else gs

/-- The scheduled-death test opening the per-creature loop of
`updatePokemons` (`src/services/game.ts` line 380):
`p.scheduledDeathHour !== null && currentHour >= p.scheduledDeathHour`. -/
def deathDue (currentHour : ℚ) (p : Pokemon) : Bool :=
  match p.scheduledDeathHour with
  | none => false
  | some h => decide (currentHour ≥ h)

/-! ## Save / load round-trip (`saveGame` and `rehydrateGameState`,
`src/services/game.ts` lines 1274-1281 and 1312-1355) -/

/-- `saveGame(gs)` (`src/services/game.ts` lines 1274-1281): stamps
`lastUpdateTimestamp = Date.now()` and serializes the state (the sprite
cache, which is emptied in the serialized copy, is not part of the model).
`now` is `Date.now()`, in milliseconds. -/
def saveGame (now : ℚ) (gs : GameState) : GameState :=
  { gs with lastUpdateTimestamp := now }

/-- `rehydrateGameState(parsedData)` (`src/services/game.ts`
lines 1312-1355) on a well-formed save, i.e. one written by `saveGame` with
every serialized field present.  The offline-progress block (energy
regeneration and respawn-timer credit) runs only when
`offlineSeconds > 5`; the `Object.assign(new …, parsed)` chain then copies
every serialized field back and is the identity on them, except that every
creature's `isNew` is forced to `false` and `lastUpdateTimestamp` is
restamped to `now`.  `regenPerSec` is `CONFIG.energy.regenPerSec` from
`src/constants.ts` (not among the provided sources). -/
def rehydrateGameState (regenPerSec : ℚ) (now : ℚ) (parsed : GameState) :
    GameState :=
  let offlineSeconds := max 0 ((now - parsed.lastUpdateTimestamp) / 1000)
  let parsed :=
    if offlineSeconds > 5 then
      { parsed with
        player := { parsed.player with
          energy := min parsed.player.maxEnergy
            (parsed.player.energy + offlineSeconds * regenPerSec) }
        respawnQueue := parsed.respawnQueue.map
          (fun it => { it with timer := it.timer - offlineSeconds }) }
    else parsed
  { parsed with
    pokemons := parsed.pokemons.map (fun p => { p with isNew := false })
    lastUpdateTimestamp := now }

/-! ## The living creature's per-tick behavior step (`updatePokemons`,
`src/services/game.ts` lines 426-704) -/

/-- The irrational `Math` primitives the behavior step uses (`Math.PI`,
`Math.cos`, `Math.sin`, `Math.atan2`, `Math.hypot`).  They are parameters of
the embedding: every theorem below holds for an arbitrary interpretation. -/
structure MathOps where
  pi : ℚ
  cos : ℚ → ℚ
  sin : ℚ → ℚ
  atan2 : ℚ → ℚ → ℚ
  hypot : ℚ → ℚ → ℚ

/-- A `POKEMON_ABILITIES` entry as read by `updatePokemons`
(`src/services/game.ts` lines 500-565): the `type` tag plus the fields the
handled cases use.  The table itself lives in `src/constants.ts` (not among
the provided sources) and is a parameter. -/
structure PokeAbility where
  type : String
  item : String := ""
  bonus : ℚ := 0
  cooldown : ℚ := 0
deriving DecidableEq

/-- The parts of the game state a living creature's step may read or mutate
besides the creature itself. -/
structure TickEnv where
  world : FarmWorld
  cropPlots : List CropPlot := []
  player : Player
  respawnQueue : List RespawnItem := []
deriving DecidableEq

/-- JS `v || d` on an optional numeric config entry: `undefined` and `0`
both fall back to the default. -/
def jsOr (v : Option ℚ) (d : ℚ) : ℚ :=
  match v with
  | none => d
  | some x => if x = 0 then d else x

/-- `findIndex` followed by `splice(i, 1)`: remove the first match,
returning it and the remaining list. -/
def extractFirst {α : Type} (pred : α → Bool) : List α → Option (α × List α)
  | [] => none
  | a :: rest =>
    if pred a then some (a, rest)
    else (extractFirst pred rest).map (fun r => (r.1, a :: r.2))

/-- Mutate the element at index `i` in place. -/
def updateAt {α : Type} (i : Nat) (f : α → α) (l : List α) : List α :=
  match l.get? i with
  | some a => l.set i (f a)
  | none => l

/-- `findClosest(p, gs.cropPlots.filter(pred))` (`src/services/game.ts`
lines 358-369 at its call sites, lines 507 and 514), returning the position
of the found plot in the unfiltered list.  `findClosest` starts from
`minDist = Infinity` and replaces only on strictly smaller `hypot` distance,
so it returns the first eligible element of minimal distance — filtering
preserves order, so selecting over the original list with the eligibility
predicate is the same element. -/
def findClosestPlotIdx (mo : MathOps) (sx sy : ℚ) (pred : CropPlot → Bool)
    (plots : List CropPlot) : Option Nat :=
  (plots.foldl (fun acc plot =>
      let next := (acc.1 + 1, acc.2)
      if pred plot then
        let dist := mo.hypot (sx - plot.x) (sy - plot.y)
        match acc.2 with
        | none => (acc.1 + 1, some (acc.1, dist))
        | some best =>
          if dist < best.2 then (acc.1 + 1, some (acc.1, dist)) else next
      else next)
    ((0 : Nat), (none : Option (Nat × ℚ)))).2.map Prod.fst

/-- `['Abra', 'Kadabra', 'Alakazam']` (`src/services/game.ts` line 441). -/
def abraFamily : List String := ["Abra", "Kadabra", "Alakazam"]

/-- `flyingPokemonKinds` (`src/services/game.ts` line 371). -/
def flyingPokemonKinds : List String :=
  ["Zubat", "Golbat", "Crobat", "Pidgey", "Pidgeotto", "Pidgeot", "Aerodactyl"]

/-- `housePatrolKinds` (`src/services/game.ts` line 372). -/
def housePatrolKinds : List String :=
  ["Growlithe", "Arcanine", "Meowth", "Persian"]

/-- `['Magikarp', 'Gyarados', 'Psyduck', 'Lapras']`
(`src/services/game.ts` line 586). -/
def riverPokemonKinds : List String :=
  ["Magikarp", "Gyarados", "Psyduck", "Lapras"]

/-- Action-timer bookkeeping (`src/services/game.ts` lines 431-439).  The JS
guard `p.actionTimer && p.actionTimer > 0` is false for `undefined`, `0` and
negative values, i.e. exactly when the timer is absent or not positive. -/
def actionTimerStep (p : Pokemon) (dt : ℚ) : Pokemon :=
  match p.actionTimer with
  | none => p
  | some t =>
    if t > 0 then
      let t' := t - dt
      if t' ≤ 0 then
        { p with actionTimer := some 0
                 aiState := if p.aiState = .working then .idle else p.aiState }
      else { p with actionTimer := some t' }
    else p

/-- The do-while of the teleport-away branch (`src/services/game.ts`
lines 456-462) together with the `attempts < 100` test that follows it.
`fuel` is `99 - attempts` entering an iteration, so the loop is structural;
the 100th draw is still made but its result is discarded (`attempts < 100`
has just failed), hence the `false` at fuel `0`. -/
def teleportAwayLoop (world : FarmWorld) : Nat → Rng → (ℚ × ℚ × Bool) × Rng
  | 0, rng =>
    let (tx, rng) := rintR rng 50 (world.w - 50)
    let (ty, rng) := rintR rng 50 (world.h - 50)
    ((tx, ty, false), rng)
  | fuel + 1, rng =>
    let (tx, rng) := rintR rng 50 (world.w - 50)
    let (ty, rng) := rintR rng 50 (world.h - 50)
    if isPositionInvalid tx ty world then teleportAwayLoop world fuel rng
    else ((tx, ty, true), rng)

/-- The Abra-family teleport logic (`src/services/game.ts` lines 442-495). -/
def teleportStep (mo : MathOps) (world : FarmWorld) (p : Pokemon) (dt : ℚ)
    (rng : Rng) : Pokemon × Rng :=
  if abraFamily.contains p.kind then
    let init : Pokemon × Rng :=
      match p.teleportState with
      | none =>
        let t := rintR rng 30 60
        ({ p with teleportState := some .home, teleportTimer := some t.1 },
         t.2)
      | some _ => (p, rng)
    let p := init.1
    let rng := init.2
    let p := { p with
      teleportTimer := some (max 0 (p.teleportTimer.getD 0 - dt)) }
    if p.teleportTimer.getD 0 ≤ (0 : ℚ) then
      if p.teleportState = some .home then
        let t := rintR rng 60 120
        let p := { p with teleportState := some .away, teleportTimer := some t.1 }
        let res := teleportAwayLoop world 99 t.2
        if res.1.2.2 then
          ({ p with x := res.1.1, y := res.1.2.1, target := none,
                    aiState := .idle }, res.2)
        else
          ({ p with teleportState := some .home, teleportTimer := some 30 },
           res.2)
      else
        let t := rintR rng 180 300
        let p := { p with teleportState := some .home, teleportTimer := some t.1 }
        match world.structs.find? (fun s => decide (p.homeBuildingId = some s.id)) with
        | some home =>
          if home.type = "lake" then
            let radius := min home.w home.h / 2 * (9/10)
            let a := rnext t.2
            let angle := a.1 * mo.pi * 2
            let r0 := rnext a.2
            let r := r0.1 * radius
            ({ p with
                x := home.x + home.w / 2 + mo.cos angle * r
                y := home.y + home.h / 2 + mo.sin angle * r
                target := none
                aiState := .idle }, r0.2)
          else ({ p with teleportTimer := some 60 }, t.2)
        | none => ({ p with teleportTimer := some 60 }, t.2)
    else (p, rng)
  else (p, rng)

/-- One automatic ability action (the `switch` of `src/services/game.ts`
lines 502-559), returning the updated environment, creature and stream plus
the `taskCompleted` flag.  `respawnCfg` is `CONFIG.resourceRespawn` from
`src/constants.ts` (not among the provided sources).  The apple count drawn
by `rint(1, 3)` is integer-valued, so its floor is exact. -/
def abilityAction (mo : MathOps) (respawnCfg : String → Option ℚ)
    (ab : PokeAbility) (env : TickEnv) (p : Pokemon) (rng : Rng) :
    TickEnv × Pokemon × Rng × Bool :=
  if ab.type = "apple_eater" then
    match extractFirst (fun r => r.type == "apple_tree") env.world.resources with
    | some res =>
      ({ env with world := { env.world with resources := res.2 } }, p, rng,
       true)
    | none => (env, p, rng, false)
  else if ab.type = "water_crop" then
    match findClosestPlotIdx mo p.x p.y
        (fun plot => plot.state == CropState.growing && !plot.isWatered)
        env.cropPlots with
    | some i =>
      ({ env with cropPlots := updateAt i CropPlot.water env.cropPlots },
       p, rng, true)
    | none => (env, p, rng, false)
  else if ab.type = "fertilize_crop" then
    match findClosestPlotIdx mo p.x p.y
        (fun plot => plot.state == CropState.growing && !plot.fertilized)
        env.cropPlots with
    | some i =>
      let plots := updateAt i (fun plot => { plot with fertilized := true })
        env.cropPlots
      ({ env with cropPlots := plots }, p, rng, true)
    | none => (env, p, rng, false)
  else if ab.type = "harvest_apple_tree" then
    match extractFirst (fun r => r.type == "apple_tree") env.world.resources with
    | some res =>
      let n := rintR rng 1 3
      ({ env with
          world := { env.world with resources := res.2 }
          respawnQueue := env.respawnQueue ++
            [⟨"oak_tree", jsOr (respawnCfg "apple_tree") 240⟩]
          player := env.player.addItem "apple" ⌊n.1⌋ },
       { p with applesHarvested := some (p.applesHarvested.getD 0 + n.1) },
       n.2, true)
    | none => (env, p, rng, false)
  else if ab.type = "harvest_plant" then
    match extractFirst (fun r => r.type == "wild_plant") env.world.resources with
    | some res =>
      let item := if res.1.state = some PlantState.bush then "fiber"
        else "flower"
      ({ env with
          world := { env.world with resources := res.2 }
          player := env.player.addItem item 1
          respawnQueue := env.respawnQueue ++
            [⟨"wild_plant", jsOr (respawnCfg "wild_plant") 150⟩] },
       p, rng, true)
    | none => (env, p, rng, false)
  else if ab.type = "cooldown_item" then
    if !(p.kind == "Onix" || p.kind == "Steelix") then
      ({ env with player := env.player.addItem ab.item 1 }, p, rng, true)
    else
      match p.homeBuildingId with
      | some hid =>
        if hid = "" then (env, p, rng, false)
        else
          match env.world.structs.find? (fun s => s.id == hid) with
          | some home =>
            if p.x > home.x ∧ p.x < home.x + home.w ∧
                p.y > home.y ∧ p.y < home.y + home.h then
              ({ env with player := env.player.addItem ab.item 1 }, p, rng,
               true)
            else (env, p, rng, false)
          | none => (env, p, rng, false)
      | none => (env, p, rng, false)
  else (env, p, rng, false)

/-- The automatic-ability block (`src/services/game.ts` lines 500-565):
gate on `p.cooldown <= 0 && ability && p.aiState !== 'working'`, run the
action, and on completion re-arm the cooldown and start the working
animation. -/
def abilityStep (mo : MathOps) (abilities : String → Option PokeAbility)
    (respawnCfg : String → Option ℚ) (env : TickEnv) (p : Pokemon)
    (rng : Rng) : TickEnv × Pokemon × Rng :=
  match abilities p.kind with
  | none => (env, p, rng)
  | some ab =>
    if p.cooldown ≤ 0 ∧ p.aiState ≠ .working then
      let r := abilityAction mo respawnCfg ab env p rng
      if r.2.2.2 then
        (r.1, { r.2.1 with cooldown := ab.cooldown, aiState := .working,
                           actionTimer := some 1 }, r.2.2.1)
      else (r.1, r.2.1, r.2.2.1)
    else (env, p, rng)

/-- Target-chasing movement (`src/services/game.ts` lines 569-580). -/
def moveStep (mo : MathOps) (p : Pokemon) (dt : ℚ) : Pokemon :=
  match p.target with
  | none => p
  | some t =>
    let dist := mo.hypot (t.x - p.x) (t.y - p.y)
    if dist > 10 then
      { p with x := p.x + (t.x - p.x) / dist * p.moveSpeed * dt
               y := p.y + (t.y - p.y) / dist * p.moveSpeed * dt }
    else { p with target := none, aiState := .idle }

/-- The home lookup of the confinement block (`src/services/game.ts`
line 585): `(p.homeBuildingId && !isAbraFamilyAway) ?
gs.world.structs.find(s => s.id === p.homeBuildingId) : null`, including the
JS string truthiness of the id. -/
def homeOf (world : FarmWorld) (p : Pokemon) (isAbraFamilyAway : Bool) :
    Option Building :=
  match p.homeBuildingId with
  | some hid =>
    if hid ≠ "" ∧ isAbraFamilyAway = false then
      world.structs.find? (fun s => s.id == hid)
    else none
  | none => none

/-- The position-confinement block (`src/services/game.ts` lines 583-637). -/
def clampStep (mo : MathOps) (world : FarmWorld) (p : Pokemon) (rng : Rng) :
    Pokemon × Rng :=
  let isFlying := flyingPokemonKinds.contains p.kind
  let isAbraFamilyAway := abraFamily.contains p.kind &&
    p.teleportState == some TeleportState.away
  let home := homeOf world p isAbraFamilyAway
  match home, isFlying with
  | some hm, false =>
    if hm.type = "river_area" then
      match world.specials.find? (fun s => s.type == "river") with
      | some riverSpecial =>
        if ¬ isPointInPolygon ⟨p.x, p.y⟩ riverSpecial.points then
          let rt := getRandomPointInRiver world rng
          match rt.1 with
          | some t =>
            ({ p with x := t.x, y := t.y, target := none, aiState := .idle },
             rt.2)
          | none => (p, rt.2)
        else (p, rng)
      | none => (p, rng)
    else if hm.type = "lake" ∨ hm.type = "laboratory" then
      let centerX := hm.x + hm.w / 2
      let centerY := hm.y + hm.h / 2
      let radius := min hm.w hm.h / 2 * (9/10)
      let distFromCenter := mo.hypot (p.x - centerX) (p.y - centerY)
      if distFromCenter > radius then
        let angle := mo.atan2 (p.y - centerY) (p.x - centerX)
        ({ p with x := centerX + mo.cos angle * radius
                  y := centerY + mo.sin angle * radius
                  target := none, aiState := .idle }, rng)
      else (p, rng)
    else
      ({ p with x := clamp p.x (hm.x + 10) (hm.x + hm.w - 10)
                y := clamp p.y (hm.y + 10) (hm.y + hm.h - 10) }, rng)
  | _, _ =>
    if riverPokemonKinds.contains p.kind then
      match world.specials.find? (fun s => s.type == "river") with
      | some river =>
        if ¬ isPointInPolygon ⟨p.x, p.y⟩ river.points then
          let rt := getRandomPointInRiver world rng
          match rt.1 with
          | some t =>
            ({ p with x := t.x, y := t.y, target := none, aiState := .idle },
             rt.2)
          | none => (p, rt.2)
        else (p, rng)
      | none => (p, rng)
    else
      let px := clamp p.x 50 (world.w - 50)
      let py := clamp p.y 50 (world.h - 50)
      if ¬ isFlying ∧ isPositionInvalid px py world then
        ({ p with x := px, y := py, target := none, aiState := .idle }, rng)
      else ({ p with x := px, y := py }, rng)

/-- The 10-attempt patrol-point search of the house-patrol wander branch
(`src/services/game.ts` lines 648-659). -/
def patrolSearch (mo : MathOps) (world : FarmWorld) (house : Building) :
    Nat → Rng → Option Pt × Rng
  | 0, rng => (none, rng)
  | fuel + 1, rng =>
    let (a, rng) := rnext rng
    let angle := a * mo.pi * 2
    let (r0, rng) := rnext rng
    let radius := 80 + r0 * 120
    let tempX := house.x + house.w / 2 + mo.cos angle * radius
    let tempY := house.y + house.h / 2 + mo.sin angle * radius
    if ¬ isPositionInvalid tempX tempY world false then
      (some ⟨tempX, tempY⟩, rng)
    else patrolSearch mo world house fuel rng

/-- The 10-attempt search of the general-wanderer branch
(`src/services/game.ts` lines 690-701). -/
def wanderSearch (world : FarmWorld) (px py : ℚ) (isFlying : Bool) :
    Nat → Rng → Option Pt × Rng
  | 0, rng => (none, rng)
  | fuel + 1, rng =>
    let (dx, rng) := rintR rng (-120) 120
    let (dy, rng) := rintR rng (-120) 120
    let cx := clamp (px + dx) 50 (world.w - 50)
    let cy := clamp (py + dy) 50 (world.h - 50)
    if ¬ isPositionInvalid cx cy world isFlying then (some ⟨cx, cy⟩, rng)
    else wanderSearch world px py isFlying fuel rng

/-- The idle-wander block (`src/services/game.ts` lines 640-704).  The
`Math.random() < 0.01` roll is drawn only when the creature is idle (JS `&&`
short-circuits).  `home`, `isFlying` and the away flag are recomputed here
with the same expressions as in the confinement block; the fields they read
(`kind`, `teleportState`, `homeBuildingId`) are untouched between the two,
so the values coincide with the source's single `const`s. -/
def wanderStep (mo : MathOps) (world : FarmWorld) (p : Pokemon) (rng : Rng) :
    Pokemon × Rng :=
  if p.aiState = .idle then
    let q := rnext rng
    if q.1 < 1/100 then
      let isFlying := flyingPokemonKinds.contains p.kind
      let isAbraFamilyAway := abraFamily.contains p.kind &&
        p.teleportState == some TeleportState.away
      let home := homeOf world p isAbraFamilyAway
      let tgt : Option Pt × Rng :=
        if housePatrolKinds.contains p.kind then
          match world.structs.find? (fun s => s.type == "house") with
          | some house => patrolSearch mo world house 10 q.2
          | none => (none, q.2)
        else
          match home, isFlying with
          | some hm, false =>
            if hm.type = "river_area" then getRandomPointInRiver world q.2
            else if hm.type = "lake" ∨ hm.type = "laboratory" then
              let radius := min hm.w hm.h / 2 * (9/10)
              let a := rnext q.2
              let angle := a.1 * mo.pi * 2
              let r0 := rnext a.2
              let r := r0.1 * radius
              (some ⟨hm.x + hm.w / 2 + mo.cos angle * r,
                     hm.y + hm.h / 2 + mo.sin angle * r⟩, r0.2)
            else
              let tx := rintR q.2 10 (hm.w - 10)
              let ty := rintR tx.2 10 (hm.h - 10)
              (some ⟨hm.x + tx.1, hm.y + ty.1⟩, ty.2)
          | _, _ =>
            if riverPokemonKinds.contains p.kind then
              getRandomPointInRiver world q.2
            else wanderSearch world p.x p.y isFlying 10 q.2
      match tgt.1 with
      | some t =>
        ({ p with target := some ⟨t.x, t.y, none⟩, aiState := .moving },
         tgt.2)
      | none => (p, tgt.2)
    else (p, q.2)
  else (p, rng)

/-- `p.cooldown = Math.max(0, p.cooldown - dt)`
(`src/services/game.ts` line 497). -/
def cooldownStep (p : Pokemon) (dt : ℚ) : Pokemon :=
  { p with cooldown := max 0 (p.cooldown - dt) }

/-- One living creature's per-tick behavior step: the body of the
`updatePokemons` forEach after the death check
(`src/services/game.ts` lines 426-704), with the mutated game-state parts
and the random stream threaded explicitly.  The sleeping early-return
(line 428) precedes every other statement of the body. -/
def processLivingPokemon (mo : MathOps)
    (abilities : String → Option PokeAbility)
    (respawnCfg : String → Option ℚ) (env : TickEnv) (p : Pokemon) (dt : ℚ)
    (rng : Rng) : TickEnv × Pokemon × Rng :=
  if p.isSleeping then (env, p, rng)
  else
    let p1 := actionTimerStep p dt
    let tp := teleportStep mo env.world p1 dt rng
    let p2 := cooldownStep tp.1 dt
    let ar := abilityStep mo abilities respawnCfg env p2 tp.2
    let p3 := moveStep mo ar.2.1 dt
    let cl := clampStep mo ar.1.world p3 ar.2.2
    let wa := wanderStep mo ar.1.world cl.1 cl.2
    (ar.1, wa.1, wa.2)

/-- `{ p with homeBuildingId := h }`, named for the dangling-home
equivalence statements. -/
def withHome (h : Option String) (p : Pokemon) : Pokemon :=
  { p with homeBuildingId := h }

/-! ## Theorems for C1 -/

/-- C1, counterexample: the claim "for every state, any sequence of
`advance(state, 0)` calls leaves `state.day` unchanged and returns
`dailyRolloverOccurred = false` on every call" is false: a state whose
`lastProductionDate` differs from the current wall-clock-derived date string
(e.g. a state saved yesterday) has its `day` incremented and the call
returns `true`, even at `dt = 0`. -/
theorem c1_counterexample :
    updateGame (σ := Unit) id id (⟨5, "2024-1-1"⟩, ()) "2024-1-2"
      = ((⟨6, "2024-1-2"⟩, ()), true) := by
  decide

/-- C1, amended: day rollover is keyed on the wall-clock date string, not on
`dt`.  For every state whose `lastProductionDate` equals the current
wall-clock-derived date string, any sequence of `advance(state, 0)` calls
made while that date string is unchanged leaves `day` (and
`lastProductionDate`) unchanged and returns `dailyRolloverOccurred = false`
on every call — whatever the continuous subsystems and the daily pass do to
the rest of the state. -/
theorem c1_advance_no_rollover {σ : Type} (cont daily : σ → σ)
    (s : DayState × σ) (dateString : String) (n : Nat)
    (h : s.1.lastProductionDate = dateString) :
    (advanceCalls cont daily dateString n s).1.1 = s.1 ∧
      ∀ f ∈ (advanceCalls cont daily dateString n s).2, f = false := by
  induction n generalizing s with
  | zero => simp [advanceCalls]
  | succ n ih =>
    have hstep : updateGame cont daily s dateString = ((s.1, cont s.2), false) := by
      unfold updateGame
      simp [h]
    have hrec := ih (s := (s.1, cont s.2)) h
    constructor
    · simpa [advanceCalls, hstep] using hrec.1
    · intro f hf
      simp only [advanceCalls, hstep] at hf
      rcases List.mem_cons.mp hf with rfl | hmem
      · rfl
      · exact hrec.2 f hmem

/-- Witness for `c1_advance_no_rollover` at a concrete state and 3 calls. -/
theorem c1_advance_no_rollover_witness :
    (advanceCalls (σ := Unit) id id "2024-1-1" 3 (⟨5, "2024-1-1"⟩, ())).1.1
        = ⟨5, "2024-1-1"⟩ ∧
      ∀ f ∈ (advanceCalls (σ := Unit) id id "2024-1-1" 3 (⟨5, "2024-1-1"⟩, ())).2,
        f = false :=
  c1_advance_no_rollover id id (⟨5, "2024-1-1"⟩, ()) "2024-1-1" 3 rfl

/-! ## Theorems for C2 -/

/-- Any single crop-plot mutation present in the sources maps a plot that is
not `mature` and has `growthDays = 0` and `matureTimeInDays = 1/2` to a plot
with the same three properties: no operation in the code base ever sets
`state = 'mature'` or increments `growthDays`. -/
theorem applyCropOp_no_mature (q : CropPlot) (op : CropOp)
    (h1 : q.state ≠ .mature) (h2 : q.growthDays = 0)
    (h3 : q.matureTimeInDays = 1/2) :
    (applyCropOp q op).state ≠ .mature ∧ (applyCropOp q op).growthDays = 0 ∧
      (applyCropOp q op).matureTimeInDays = 1/2 := by
  cases op with
  | plant s => simp [applyCropOp, CropPlot.plant]
  | water =>
    simp only [applyCropOp, CropPlot.water]
    split_ifs <;> simp_all
  | fertilize => simp_all [applyCropOp]
  | harvest player rand =>
    unfold applyCropOp CropPlot.harvest
    rcases hs : q.state <;> rcases ht : q.type with _ | t <;> simp_all
  | dailyWaterReset r =>
    simp only [applyCropOp, CropPlot.dailyWaterReset]
    split_ifs <;> simp_all
  | reset => simp_all [applyCropOp, CropPlot.reset]

/-- C2 (the code violates the claim): a `CropPlot` that has been planted
never transitions to `mature`, no matter which sequence of the crop-plot
operations that exist in the sources is subsequently applied — its
`growthDays` stays `0` forever and so never reaches
`matureTimeInDays = 0.5`.  The growing→mature transition is absent from the
code: no statement assigns `state = 'mature'` or increments `growthDays`. -/
theorem c2_planted_plot_never_matures (plot : CropPlot) (seed : String)
    (ops : List CropOp) :
    (ops.foldl applyCropOp (plot.plant seed)).state ≠ CropState.mature ∧
      (ops.foldl applyCropOp (plot.plant seed)).growthDays = 0 := by
  have key : ∀ (ops : List CropOp) (q : CropPlot), q.state ≠ .mature →
      q.growthDays = 0 → q.matureTimeInDays = 1/2 →
      (ops.foldl applyCropOp q).state ≠ .mature ∧
        (ops.foldl applyCropOp q).growthDays = 0 := by
    intro ops
    induction ops with
    | nil => intro q h1 h2 _; exact ⟨h1, h2⟩
    | cons op rest ih =>
      intro q h1 h2 h3
      obtain ⟨g1, g2, g3⟩ := applyCropOp_no_mature q op h1 h2 h3
      exact ih (applyCropOp q op) g1 g2 g3
  exact key ops (plot.plant seed) (by simp [CropPlot.plant])
    (by simp [CropPlot.plant]) (by simp [CropPlot.plant])

/-- Witness for `c2_planted_plot_never_matures`: a freshly planted plot,
after a watering, a fertilization and a daily cycle, is still `growing`. -/
theorem c2_planted_plot_never_matures_witness :
    (([CropOp.water, CropOp.fertilize, CropOp.dailyWaterReset true].foldl
        applyCropOp (CropPlot.plant { id := "plot1", x := 0, y := 0 }
          "seedGraoBaga")).state
      ≠ CropState.mature) ∧
    (([CropOp.water, CropOp.fertilize, CropOp.dailyWaterReset true].foldl
        applyCropOp (CropPlot.plant { id := "plot1", x := 0, y := 0 }
          "seedGraoBaga")).growthDays
      = 0) :=
  c2_planted_plot_never_matures { id := "plot1", x := 0, y := 0 }
    "seedGraoBaga" _

/-! ## Theorems for C3 -/

theorem invGet_invSet_self (inv : Inventory) (k : String) (v : Int) :
    invGet (invSet inv k v) k = v := by
  unfold invGet invSet
  by_cases h : inv.any (fun e => e.1 == k)
  · simp only [h, if_true]
    induction inv with
    | nil => simp at h
    | cons e rest ih =>
      by_cases he : e.1 == k
      · simp [List.find?, he]
      · simp only [List.any_cons, he, Bool.false_or] at h
        simpa [List.find?, he] using ih h
  · simp only [h, if_false]
    have hnone : inv.find? (fun e => e.1 == k) = none := by
      rw [List.find?_eq_none]
      intro x hx
      simp only [List.any_eq_true, not_exists, not_and] at h
      simpa using h x hx
    simp [List.find?_append, hnone, List.find?]

/-- C3, counterexample: harvesting a mature, unfertilized plot does NOT
double the yield with probability 0.15: at the uniform draw `q = 1/10`
(which lies inside the claimed double-yield region `[0, 0.15)`), the code
yields 1 crop, because the unfertilized double-yield chance in the source is
`0.05` (`const doubleChance = this.fertilized ? 0.15 : 0.05`). -/
theorem c3_counterexample :
    (1/10 : ℚ) < 15/100 ∧
      ((CropPlot.harvest
          { id := "plot1", x := 0, y := 0, state := .mature,
            type := some "seedGraoBaga" }
          {} (1/10)).2.2 = some (cropTypeOf "seedGraoBaga", 1)) :=
  ⟨by norm_num,
   by norm_num [CropPlot.harvest, (by decide : ("seedGraoBaga" : String) ≠ "")]⟩

/-- C3, amended: harvesting a mature, planted `CropPlot` with
`fertilized = false` yields 2 crops exactly when the uniform double-yield
draw falls below `0.05` — i.e. 1 crop with probability 0.95 and 2 with
probability 0.05 — credits the yield (under the seed name stripped of the
`seed` prefix and lowercased) to the player's inventory, and resets the plot
to `empty`. -/
theorem c3_harvest_unfertilized (plot : CropPlot) (player : Player)
    (t : String) (q : ℚ) (hstate : plot.state = .mature)
    (htype : plot.type = some t) (ht : t ≠ "")
    (hfert : plot.fertilized = false) :
    (plot.harvest player q).2.2
        = some (cropTypeOf t, if q < 5/100 then 2 else 1) ∧
      (plot.harvest player q).1.state = .empty ∧
      (plot.harvest player q).1.type = none ∧
      (plot.harvest player q).1.growthDays = 0 ∧
      (plot.harvest player q).1.fertilized = false ∧
      (plot.harvest player q).1.isWatered = false ∧
      invGet (plot.harvest player q).2.1.inventory (cropTypeOf t)
        = invGet player.inventory (cropTypeOf t)
            + (if q < 5/100 then 2 else 1) := by
  unfold CropPlot.harvest
  simp only [hstate, htype, hfert, if_neg ht]
  simp [Player.addItem, invGet_invSet_self, ht]

/-- Witness for `c3_harvest_unfertilized` at a concrete plot and draw. -/
theorem c3_harvest_unfertilized_witness :
    (CropPlot.harvest
        { id := "plot1", x := 0, y := 0, state := .mature,
          type := some "seedGraoBaga" } {} (1/40)).2.2
      = some (cropTypeOf "seedGraoBaga", if (1/40 : ℚ) < 5/100 then 2 else 1) :=
  (c3_harvest_unfertilized
    { id := "plot1", x := 0, y := 0, state := .mature,
      type := some "seedGraoBaga" } {} "seedGraoBaga" (1/40)
    rfl rfl (by decide) rfl).1

/-! ## Theorems for C4 -/

theorem countTrees_append (rs : List Resource) (r : Resource) :
    countTrees (rs ++ [r])
      = countTrees rs + (if strEndsWith r.type "_tree" then 1 else 0) := by
  simp only [countTrees, List.filter_append, List.length_append]
  split <;> simp_all

theorem length_filter_split {α} (l : List α) (p q : α → Bool) :
    (List.filter p (List.filter q l)).length
      + (List.filter p (List.filter (fun a => !q a) l)).length
      = (List.filter p l).length := by
  induction l with
  | nil => rfl
  | cons x xs ih =>
    by_cases hq : q x = true <;> by_cases hp : p x = true <;>
      simp [List.filter_cons, hq, hp] at ih ⊢ <;> omega

theorem treeTickets_partition (l : List RespawnItem) :
    (treeTicketsOf (l.filter (fun item => decide (item.timer > 0)))).length
        + (treeTicketsOf (l.filter (fun item =>
            decide (¬ item.timer > 0)))).length
      = (treeTicketsOf l).length := by
  have hfun : (fun item : RespawnItem => decide (¬ item.timer > 0))
      = fun item : RespawnItem => !decide (item.timer > 0) := by
    funext item
    by_cases h : 0 < item.timer <;> simp [h, not_lt]
  rw [hfun]
  exact length_filter_split l (fun i => strEndsWith i.type "_tree")
    (fun item => decide (item.timer > 0))

/-- `doSpawn` on a non-tree item type neither changes the tree-resource
count nor the respawn queue nor the running tree counter. -/
theorem doSpawn_nonTree (lifespans : String → Option ℚ) (a : RespawnPass)
    (itemType : String) (isTree : Bool)
    (h : strEndsWith itemType "_tree" = false) :
    countTrees (doSpawn lifespans a itemType isTree).gs.world.resources
        = countTrees a.gs.world.resources ∧
      (doSpawn lifespans a itemType isTree).gs.respawnQueue
        = a.gs.respawnQueue ∧
      (doSpawn lifespans a itemType isTree).treeCount = a.treeCount := by
  have hoak : itemType ≠ "oak_tree" := by
    rintro rfl; exact absurd h (by decide)
  have hpine : itemType ≠ "pine_tree" := by
    rintro rfl; exact absurd h (by decide)
  rcases htry : trySpawnPoint isTree a.gs.world a.rng with ⟨pt, rng⟩
  unfold doSpawn
  dsimp only
  rw [htry]
  cases pt with
  | none => exact ⟨rfl, rfl, rfl⟩
  | some xy =>
    obtain ⟨x, y⟩ := xy
    simp only [hoak, hpine, or_self, if_false, ite_false]
    by_cases hempty : itemType = ""
    · simp [hempty]
    · rcases hres : mkResource itemType x y (some a.gs.day) rng with ⟨newRes, rng2⟩
      have htype : newRes.type = itemType := by
        simp only [mkResource] at hres
        cases hres; rfl
      simp only [hempty, if_false, ite_false, hres, h, htype]
      simp [h, htype, countTrees_append]

/-- One step of the respawn loop, with the world already at the tree cap:
the tree count and counter are preserved, and the queue grows by exactly
the denied tickets — for a tree item, by its own ticket re-armed with the
fixed 10-second retry delay. -/
theorem processRespawnItem_at_cap (caps : WorldCaps)
    (lifespans : String → Option ℚ) (a : RespawnPass) (item : RespawnItem)
    (hcount : countTrees a.gs.world.resources = caps.maxTrees)
    (htc : a.treeCount = caps.maxTrees) :
    countTrees (processRespawnItem caps lifespans a item).gs.world.resources
        = caps.maxTrees ∧
      (processRespawnItem caps lifespans a item).treeCount = caps.maxTrees ∧
      ∃ suffix,
        (processRespawnItem caps lifespans a item).gs.respawnQueue
            = a.gs.respawnQueue ++ suffix ∧
          treeTicketsOf suffix
            = if strEndsWith item.type "_tree" then
                [{ type := item.type, timer := 10 }] else [] := by
  unfold processRespawnItem
  dsimp only
  by_cases hTree : strEndsWith item.type "_tree" = true
  · have hc1 : ¬ (strEndsWith item.type "_tree" = true ∧
        a.treeCount < caps.maxTrees) := by
      rintro ⟨-, hlt⟩; omega
    have hRockT : item.type ≠ "rock" := by
      rintro hr; rw [hr] at hTree; exact absurd hTree (by decide)
    have hPlantT : item.type ≠ "wild_plant" := by
      rintro hr; rw [hr] at hTree; exact absurd hTree (by decide)
    rw [if_neg hc1, if_neg (fun hc => hRockT hc.1),
      if_neg (fun hc => hPlantT hc.1)]
    refine ⟨hcount, htc, [{ type := item.type, timer := 10 }], rfl, ?_⟩
    simp [treeTicketsOf, hTree]
  · have hTree' : strEndsWith item.type "_tree" = false := by
      simpa using hTree
    rw [if_neg (fun hc => hTree hc.1)]
    by_cases hRock : item.type = "rock" ∧ a.rockCount < caps.maxRocks
    · rw [if_pos hRock]
      obtain ⟨d1, d2, d3⟩ := doSpawn_nonTree lifespans
        { a with rockCount := a.rockCount + 1 } item.type
        (strEndsWith item.type "_tree") hTree'
      exact ⟨by rw [d1]; exact hcount, by rw [d3]; exact htc,
        [], by rw [d2]; simp, by simp [treeTicketsOf, hTree']⟩
    · rw [if_neg hRock]
      by_cases hPlant : item.type = "wild_plant" ∧
          a.plantCount < caps.maxWildPlants
      · rw [if_pos hPlant]
        obtain ⟨d1, d2, d3⟩ := doSpawn_nonTree lifespans
          { a with plantCount := a.plantCount + 1 } item.type
          (strEndsWith item.type "_tree") hTree'
        exact ⟨by rw [d1]; exact hcount, by rw [d3]; exact htc,
          [], by rw [d2]; simp, by simp [treeTicketsOf, hTree']⟩
      · rw [if_neg hPlant]
        refine ⟨hcount, htc, [{ type := item.type, timer := 10 }], rfl, ?_⟩
        simp [treeTicketsOf, hTree']

/-- Folding the respawn loop over any expired-item list, with the world at
the tree cap. -/
theorem foldRespawn_at_cap (caps : WorldCaps)
    (lifespans : String → Option ℚ) (items : List RespawnItem)
    (a : RespawnPass)
    (hcount : countTrees a.gs.world.resources = caps.maxTrees)
    (htc : a.treeCount = caps.maxTrees) :
    countTrees (items.foldl (processRespawnItem caps lifespans)
        a).gs.world.resources = caps.maxTrees ∧
      (items.foldl (processRespawnItem caps lifespans) a).treeCount
        = caps.maxTrees ∧
      ∃ suffix,
        (items.foldl (processRespawnItem caps lifespans) a).gs.respawnQueue
            = a.gs.respawnQueue ++ suffix ∧
          treeTicketsOf suffix
            = (treeTicketsOf items).map
                (fun i => { type := i.type, timer := 10 }) := by
  induction items generalizing a with
  | nil => exact ⟨hcount, htc, [], by simp, by simp [treeTicketsOf]⟩
  | cons item rest ih =>
    obtain ⟨s1, s2, suf₁, hq₁, hf₁⟩ :=
      processRespawnItem_at_cap caps lifespans a item hcount htc
    obtain ⟨r1, r2, suf₂, hq₂, hf₂⟩ :=
      ih (processRespawnItem caps lifespans a item) s1 s2
    refine ⟨r1, r2, suf₁ ++ suf₂, ?_, ?_⟩
    · simp [List.foldl_cons, hq₂, hq₁]
    · have : treeTicketsOf (suf₁ ++ suf₂)
          = treeTicketsOf suf₁ ++ treeTicketsOf suf₂ := by
        simp [treeTicketsOf]
      rw [this, hf₁, hf₂]
      by_cases h : strEndsWith item.type "_tree" <;>
        simp [treeTicketsOf, h, List.filter_cons]

/-- C4: with the world already holding `maxTrees` tree resources,
`updateWorld` — advancing past any number of queued tickets' timers — does
not increase the tree-resource count, every expired tree ticket is re-armed
into the queue with the fixed 10-second retry delay rather than discarded,
and the total number of tree tickets in the queue is conserved. -/
theorem c4_respawn_cap (caps : WorldCaps) (lifespans : String → Option ℚ)
    (gs : GameState) (dt : ℚ) (rng : Rng)
    (hcap : countTrees gs.world.resources = caps.maxTrees) :
    countTrees (updateWorld caps lifespans gs dt rng).1.world.resources
        = caps.maxTrees ∧
      (∀ item ∈ gs.respawnQueue, strEndsWith item.type "_tree" = true →
        ¬ item.timer - dt > 0 →
        ({ type := item.type, timer := 10 } : RespawnItem)
          ∈ (updateWorld caps lifespans gs dt rng).1.respawnQueue) ∧
      (treeTicketsOf
          ((updateWorld caps lifespans gs dt rng).1.respawnQueue)).length
        = (treeTicketsOf gs.respawnQueue).length := by
  obtain ⟨ticked, hticked⟩ : ∃ t, gs.respawnQueue.map (fun item =>
      { item with timer := item.timer - dt }) = t := ⟨_, rfl⟩
  obtain ⟨rem, hrem⟩ : ∃ r,
      ticked.filter (fun item => item.timer > 0) = r := ⟨_, rfl⟩
  obtain ⟨its, hits⟩ : ∃ r,
      ticked.filter (fun item => ¬ item.timer > 0) = r := ⟨_, rfl⟩
  have hpartition : (treeTicketsOf rem).length + (treeTicketsOf its).length
      = (treeTicketsOf ticked).length := by
    rw [← hrem, ← hits]
    exact treeTickets_partition ticked
  have hticklen : (treeTicketsOf ticked).length
      = (treeTicketsOf gs.respawnQueue).length := by
    rw [← hticked]
    simp only [treeTicketsOf, List.filter_map, List.length_map]
    rfl
  have hmemits : ∀ item ∈ gs.respawnQueue, ¬ item.timer - dt > 0 →
      ({ item with timer := item.timer - dt } : RespawnItem) ∈ its := by
    intro item hmem hexp
    rw [← hits]
    refine List.mem_filter.mpr ⟨?_, by simpa using hexp⟩
    rw [← hticked]
    exact List.mem_map.mpr ⟨item, hmem, rfl⟩
  unfold updateWorld
  dsimp only
  rw [hticked, hrem, hits]
  by_cases hnonempty : its.length > 0
  · rw [if_pos hnonempty]
    obtain ⟨f1, f2, suffix, hq, hf⟩ := foldRespawn_at_cap caps lifespans its
      (respawnInit { gs with respawnQueue := rem } rng) hcap hcap
    refine ⟨f1, ?_, ?_⟩
    · intro item hmem htree hexp
      have hmemT : ({ item with timer := item.timer - dt } : RespawnItem)
          ∈ treeTicketsOf its :=
        List.mem_filter.mpr ⟨hmemits item hmem hexp, by simpa using htree⟩
      have hmapped : ({ type := item.type, timer := 10 } : RespawnItem)
          ∈ treeTicketsOf suffix := by
        rw [hf]
        exact List.mem_map.mpr ⟨_, hmemT, rfl⟩
      have hsuf : ({ type := item.type, timer := 10 } : RespawnItem)
          ∈ suffix := (List.mem_filter.mp hmapped).1
      exact hq ▸ List.mem_append.mpr (Or.inr hsuf)
    · have hsplit : treeTicketsOf
          ((its.foldl (processRespawnItem caps lifespans)
            (respawnInit { gs with respawnQueue := rem } rng)).gs.respawnQueue)
          = treeTicketsOf rem ++ treeTicketsOf suffix := by
        rw [hq]
        simp [treeTicketsOf, respawnInit]
      rw [hsplit, List.length_append, hf, List.length_map]
      omega
  · rw [if_neg hnonempty]
    have hempty : its = [] := by
      simpa using List.length_eq_zero.mp (by omega)
    refine ⟨hcap, ?_, ?_⟩
    · intro item hmem htree hexp
      have := hmemits item hmem hexp
      rw [hempty] at this
      exact absurd this (List.not_mem_nil _)
    · have hz : (treeTicketsOf its).length = 0 := by
        rw [hempty]; simp [treeTicketsOf]
      have hgoal : (treeTicketsOf rem).length
          = (treeTicketsOf gs.respawnQueue).length := by omega
      simpa using hgoal

/-- Witness for `c4_respawn_cap`: a world with one tree at cap `maxTrees =
1` and one expired oak-tree ticket. -/
theorem c4_respawn_cap_witness :
    countTrees (updateWorld ⟨1, 1, 1⟩ (fun _ => none)
        { player := {}, world := { w := 1000, h := 1000, resources :=
            [{ id := "r1", type := "oak_tree", x := 0, y := 0, size := 1,
               shapeVariant := 0, sizeVariant := 0 }] },
          respawnQueue := [{ type := "oak_tree", timer := 5 }] }
        5 []).1.world.resources = 1 ∧
      (∀ item ∈ [({ type := "oak_tree", timer := 5 } : RespawnItem)],
        strEndsWith item.type "_tree" = true → ¬ item.timer - 5 > 0 →
        ({ type := item.type, timer := 10 } : RespawnItem)
          ∈ (updateWorld ⟨1, 1, 1⟩ (fun _ => none)
            { player := {}, world := { w := 1000, h := 1000, resources :=
                [{ id := "r1", type := "oak_tree", x := 0, y := 0, size := 1,
                   shapeVariant := 0, sizeVariant := 0 }] },
              respawnQueue := [{ type := "oak_tree", timer := 5 }] }
            5 []).1.respawnQueue) := by
  have h := c4_respawn_cap ⟨1, 1, 1⟩ (fun _ => none)
    { player := {}, world := { w := 1000, h := 1000, resources :=
        [{ id := "r1", type := "oak_tree", x := 0, y := 0, size := 1,
           shapeVariant := 0, sizeVariant := 0 }] },
      respawnQueue := [{ type := "oak_tree", timer := 5 }] }
    5 [] (by decide)
  exact ⟨h.1, by simpa using h.2.1⟩

/-! ## Theorems for C8 -/

theorem findSome?_eq_none_iff {α β} (l : List α) (f : α → Option β) :
    l.findSome? f = none ↔ ∀ x ∈ l, f x = none := by
  induction l with
  | nil => simp [List.findSome?]
  | cons a as ih =>
    rw [List.findSome?_cons]
    cases hf : f a <;> simp [hf, ih]

theorem specials_msg_none (ty : Option String) (pt : Pt) (sp : SpecialZone) :
    (if sp.type = "quarry" then
        if ty ≠ some "mine" ∧ isPointInPolygon pt sp.points then
          some "Você não pode construir na área da pedreira."
        else none
      else
        if isPointInPolygon pt sp.points then
          some "Você não pode construir sobre a água."
        else none) = none ↔
      ((sp.type = "quarry" → ty ≠ some "mine" →
          isPointInPolygon pt sp.points = false) ∧
        (sp.type ≠ "quarry" → isPointInPolygon pt sp.points = false)) := by
  by_cases hq : sp.type = "quarry" <;>
    by_cases hin : isPointInPolygon pt sp.points = true <;>
      by_cases hm : ty = some "mine" <;>
        simp [hq, hin, hm]

theorem fertile_msg_none (pt : Pt) (fz : FertileZone) :
    (match fz with
      | FertileZone.poly pts _ _ =>
        if isPointInPolygon pt pts then
          some "Você não pode construir sobre solo fértil."
        else none
      | FertileZone.circle _ _ _ => none) = none ↔
      (∀ pts c r, fz = FertileZone.poly pts c r →
        isPointInPolygon pt pts = false) := by
  cases fz with
  | circle a b c => simp
  | poly pts c r =>
    by_cases hin : isPointInPolygon pt pts = true <;> simp [hin]

theorem struct_msg_none (x y w h : ℚ) (st : Building) :
    (if st.type ≠ "river_area" ∧ x < st.x + st.w ∧ x + w > st.x ∧
        y < st.y + st.h ∧ y + h > st.y then
      some "Você não pode construir aqui, o espaço está ocupado."
    else none) = none ↔
      (st.type ≠ "river_area" → ¬ (x < st.x + st.w ∧ x + w > st.x ∧
        y < st.y + st.h ∧ y + h > st.y)) := by
  by_cases hr : st.type = "river_area" <;>
    by_cases hov : (x < st.x + st.w ∧ x + w > st.x ∧
      y < st.y + st.h ∧ y + h > st.y) <;> simp [hr, hov]

theorem placementPointMsg_eq_none (ty : Option String) (world : FarmWorld)
    (pt : Pt) :
    placementPointMsg ty world pt = none ↔
      ((∀ sp ∈ world.specials,
          (sp.type = "quarry" → ty ≠ some "mine" →
            isPointInPolygon pt sp.points = false) ∧
          (sp.type ≠ "quarry" → isPointInPolygon pt sp.points = false)) ∧
        (∀ fz ∈ world.fertileZones, ∀ pts c r,
          fz = FertileZone.poly pts c r →
          isPointInPolygon pt pts = false)) := by
  unfold placementPointMsg
  rcases hs : world.specials.findSome? (fun sp =>
      if sp.type = "quarry" then
        if ty ≠ some "mine" ∧ isPointInPolygon pt sp.points then
          some "Você não pode construir na área da pedreira."
        else none
      else
        if isPointInPolygon pt sp.points then
          some "Você não pode construir sobre a água."
        else none) with _ | m
  · simp only [hs]
    have hSpec : ∀ sp ∈ world.specials,
        (sp.type = "quarry" → ty ≠ some "mine" →
          isPointInPolygon pt sp.points = false) ∧
        (sp.type ≠ "quarry" → isPointInPolygon pt sp.points = false) :=
      fun sp hsp => (specials_msg_none ty pt sp).mp
        ((findSome?_eq_none_iff _ _).mp hs sp hsp)
    constructor
    · intro hfert
      refine ⟨hSpec, ?_⟩
      intro fz hfz pts c r hpoly
      exact (fertile_msg_none pt fz).mp
        ((findSome?_eq_none_iff _ _).mp hfert fz hfz) pts c r hpoly
    · rintro ⟨-, hD⟩
      exact (findSome?_eq_none_iff _ _).mpr fun fz hfz =>
        (fertile_msg_none pt fz).mpr (fun pts c r hp => hD fz hfz pts c r hp)
  · simp only [hs]
    constructor
    · intro hcontra
      exact absurd hcontra (by simp)
    · rintro ⟨hC, -⟩
      exfalso
      obtain ⟨sp, hsp, hfsp⟩ := List.exists_of_findSome?_eq_some hs
      have := (specials_msg_none ty pt sp).mpr (hC sp hsp)
      rw [this] at hfsp
      exact Option.noConfusion hfsp

theorem placementAfterMine_characterization (x y w h : ℚ)
    (world : FarmWorld) (ty : Option String) :
    (placementAfterMine x y w h world ty).clear = true ↔
      (¬ (x < 20 ∨ x + w > world.w - 20 ∨ y < 20 ∨ y + h > world.h - 20) ∧
        (∀ pt ∈ ([⟨x, y⟩, ⟨x + w, y⟩, ⟨x, y + h⟩, ⟨x + w, y + h⟩,
            ⟨x + w / 2, y + h / 2⟩] : List Pt),
          (∀ sp ∈ world.specials,
            (sp.type = "quarry" → ty ≠ some "mine" →
              isPointInPolygon pt sp.points = false) ∧
            (sp.type ≠ "quarry" → isPointInPolygon pt sp.points = false)) ∧
          (∀ fz ∈ world.fertileZones, ∀ pts c r,
            fz = FertileZone.poly pts c r →
            isPointInPolygon pt pts = false)) ∧
        (∀ st ∈ world.structs, st.type ≠ "river_area" →
          ¬ (x < st.x + st.w ∧ x + w > st.x ∧ y < st.y + st.h ∧
            y + h > st.y))) := by
  unfold placementAfterMine
  dsimp only
  by_cases hb : (x < 20 ∨ x + w > world.w - 20 ∨ y < 20 ∨ y + h > world.h - 20)
  · rw [if_pos hb]
    simp [hb]
  · rw [if_neg hb]
    rcases hcp : ([⟨x, y⟩, ⟨x + w, y⟩, ⟨x, y + h⟩, ⟨x + w, y + h⟩,
        ⟨x + w / 2, y + h / 2⟩] : List Pt).findSome?
        (placementPointMsg ty world) with _ | m
    · rcases hst : world.structs.findSome? (fun st =>
          if st.type ≠ "river_area" ∧ x < st.x + st.w ∧ x + w > st.x ∧
              y < st.y + st.h ∧ y + h > st.y then
            some "Você não pode construir aqui, o espaço está ocupado."
          else none) with _ | m2
      · simp only [hcp, hst]
        constructor
        · intro _
          refine ⟨hb, ?_, ?_⟩
          · intro pt hpt
            exact (placementPointMsg_eq_none ty world pt).mp
              ((findSome?_eq_none_iff _ _).mp hcp pt hpt)
          · intro st hstm
            exact (struct_msg_none x y w h st).mp
              ((findSome?_eq_none_iff _ _).mp hst st hstm)
        · intro _
          trivial
      · simp only [hcp, hst]
        constructor
        · intro hcontra
          exact absurd hcontra (by simp)
        · rintro ⟨-, -, hE⟩
          exfalso
          obtain ⟨st, hstm, hfst⟩ := List.exists_of_findSome?_eq_some hst
          have := (struct_msg_none x y w h st).mpr (hE st hstm)
          rw [this] at hfst
          exact Option.noConfusion hfst
    · simp only [hcp]
      constructor
      · intro hcontra
        exact absurd hcontra (by simp)
      · rintro ⟨-, hCD, -⟩
        exfalso
        obtain ⟨pt, hpt, hfpt⟩ := List.exists_of_findSome?_eq_some hcp
        have := (placementPointMsg_eq_none ty world pt).mpr (hCD pt hpt)
        rw [this] at hfpt
        exact Option.noConfusion hfpt

/-- C8, counterexample: `isPlacementAreaClear` does NOT return
`clear = false` for every rectangle that geometrically overlaps the river
polygon: overlap is only sampled at the four corners and the center.  Here
the river polygon lies strictly inside the candidate rectangle — the point
`(125, 150)` is inside both — yet the query returns `clear = true`. -/
theorem c8_counterexample :
    (isPointInPolygon ⟨125, 150⟩
        [⟨120, 140⟩, ⟨130, 140⟩, ⟨130, 160⟩, ⟨120, 160⟩] = true) ∧
      ((100 : ℚ) ≤ 125 ∧ (125 : ℚ) ≤ 100 + 100 ∧
        (100 : ℚ) ≤ 150 ∧ (150 : ℚ) ≤ 100 + 100) ∧
      (isPlacementAreaClear 100 100 100 100
          { w := 1000
            h := 1000
            specials := [{ type := "river"
                           points := [⟨120, 140⟩, ⟨130, 140⟩,
                             ⟨130, 160⟩, ⟨120, 160⟩] }] }
          none).clear = true := by
  have h1 : ¬ ((none : Option String) = some "mine") := by simp
  have h2 : ¬ (("river" : String) = "quarry") := by decide
  refine ⟨by norm_num [isPointInPolygon, edgeCrosses, List.range_succ],
    by norm_num, ?_⟩
  norm_num [h1, h2, isPlacementAreaClear, placementAfterMine,
    placementPointMsg, isPointInPolygon, edgeCrosses, List.range_succ,
    List.findSome?]

/-- C8, amended: `isPlacementAreaClear` is a pure query (a function of the
world returning only a `{clear, message}` record), and it returns
`clear = true` exactly when: for a mine, the quarry exists and the
candidate's center lies inside it; the rectangle respects the 20-unit
world-boundary padding; none of its four corners or its center lies inside
the river polygon, nor (for a non-mine) inside the quarry polygon, nor
inside a polygon-shaped fertile zone (overlap with specials and fertile
zones is sampled at those five points only, so a polygon lying strictly
between the sample points is not detected; circle-shaped fertile zones are
not checked); and the rectangle does not strictly overlap any existing
structure other than a `river_area`. -/
theorem c8_placement_clear_iff (x y w h : ℚ) (world : FarmWorld)
    (ty : Option String) :
    (isPlacementAreaClear x y w h world ty).clear = true ↔
      ((ty = some "mine" →
          ∃ q, world.specials.find? (fun s => s.type == "quarry") = some q ∧
            isPointInPolygon ⟨x + w / 2, y + h / 2⟩ q.points = true) ∧
        ¬ (x < 20 ∨ x + w > world.w - 20 ∨ y < 20 ∨ y + h > world.h - 20) ∧
        (∀ pt ∈ ([⟨x, y⟩, ⟨x + w, y⟩, ⟨x, y + h⟩, ⟨x + w, y + h⟩,
            ⟨x + w / 2, y + h / 2⟩] : List Pt),
          (∀ sp ∈ world.specials,
            (sp.type = "quarry" → ty ≠ some "mine" →
              isPointInPolygon pt sp.points = false) ∧
            (sp.type ≠ "quarry" → isPointInPolygon pt sp.points = false)) ∧
          (∀ fz ∈ world.fertileZones, ∀ pts c r,
            fz = FertileZone.poly pts c r →
            isPointInPolygon pt pts = false)) ∧
        (∀ st ∈ world.structs, st.type ≠ "river_area" →
          ¬ (x < st.x + st.w ∧ x + w > st.x ∧ y < st.y + st.h ∧
            y + h > st.y))) := by
  unfold isPlacementAreaClear
  dsimp only
  by_cases hmine : ty = some "mine"
  · rw [if_pos hmine]
    rcases hq : world.specials.find? (fun s => s.type == "quarry") with _ | q
    · rw [hq]
      constructor
      · intro hcontra
        exact absurd hcontra (by simp)
      · rintro ⟨hA, -⟩
        obtain ⟨q2, hq2, -⟩ := hA hmine
        exact Option.noConfusion hq2
    · rw [hq]
      dsimp only
      by_cases hin : isPointInPolygon ⟨x + w / 2, y + h / 2⟩ q.points = true
      · rw [if_neg (show ¬ ¬ isPointInPolygon ⟨x + w / 2, y + h / 2⟩ q.points
            = true from by simp [hin])]
        have hrest := placementAfterMine_characterization x y w h world ty
        constructor
        · intro hclear
          obtain ⟨hB, hCD, hE⟩ := hrest.mp hclear
          exact ⟨fun _ => ⟨q, rfl, hin⟩, hB, hCD, hE⟩
        · rintro ⟨-, hB, hCD, hE⟩
          exact hrest.mpr ⟨hB, hCD, hE⟩
      · rw [if_pos (show ¬ isPointInPolygon ⟨x + w / 2, y + h / 2⟩ q.points
            = true from hin)]
        constructor
        · intro hcontra
          exact absurd hcontra (by simp)
        · rintro ⟨hA, -⟩
          obtain ⟨q2, hq2, hin2⟩ := hA hmine
          rw [Option.some_inj] at hq2
          subst hq2
          exact absurd hin2 hin
  · rw [if_neg hmine]
    have hrest := placementAfterMine_characterization x y w h world ty
    constructor
    · intro hclear
      obtain ⟨hB, hCD, hE⟩ := hrest.mp hclear
      exact ⟨fun hm => absurd hm hmine, hB, hCD, hE⟩
    · rintro ⟨-, hB, hCD, hE⟩
      exact hrest.mpr ⟨hB, hCD, hE⟩

/-! ## Theorems for C6 -/

theorem clamp_bounds (v : ℚ) : 0 ≤ clamp v 0 100 ∧ clamp v 0 100 ≤ 100 := by
  unfold clamp
  constructor
  · exact le_max_left 0 _
  · exact max_le (by norm_num) (min_le_left 100 v)

theorem modsSumExcept_eq_modsSum (k : String) (mods : List (String × HMod))
    (h : ∀ e ∈ mods, e.1 ≠ k) : modsSumExcept k mods = modsSum mods := by
  unfold modsSumExcept modsSum
  rw [List.filter_eq_self.mpr]
  intro e he
  simpa using h e he

theorem filter_ne_map_set (mods : List (String × HMod)) (k : String)
    (v : HMod) :
    (mods.map (fun e => if e.1 == k then (k, v) else e)).filter
        (fun e => e.1 ≠ k)
      = mods.filter (fun e => e.1 ≠ k) := by
  induction mods with
  | nil => rfl
  | cons e rest ih =>
    by_cases he : e.1 = k <;> simp [List.filter_cons, he] at ih ⊢ <;>
      exact ih

theorem filter_ne_modsSet (mods : List (String × HMod)) (k : String)
    (v : HMod) :
    (modsSet mods k v).filter (fun e => e.1 ≠ k)
      = mods.filter (fun e => e.1 ≠ k) := by
  unfold modsSet
  split
  · exact filter_ne_map_set mods k v
  · simp [List.filter_append]

theorem modsSumExcept_modsSet_self (k : String)
    (mods : List (String × HMod)) (v : HMod) :
    modsSumExcept k (modsSet mods k v) = modsSumExcept k mods := by
  unfold modsSumExcept
  rw [filter_ne_modsSet]

theorem noKey_modsSet (mods : List (String × HMod)) (k k2 : String)
    (v : HMod) (h : ∀ e ∈ mods, e.1 ≠ k) (hk : k2 ≠ k) :
    ∀ e ∈ modsSet mods k2 v, e.1 ≠ k := by
  intro e he
  unfold modsSet at he
  split at he
  · obtain ⟨e0, he0, heq⟩ := List.mem_map.mp he
    by_cases h0 : e0.1 == k2
    · rw [if_pos h0] at heq
      rw [← heq]
      exact hk
    · rw [if_neg h0] at heq
      rw [← heq]
      exact h e0 he0
  · rcases List.mem_append.mp he with hmem | hmem
    · exact h e hmem
    · simp at hmem
      subst hmem
      exact hk

theorem noKey_condSet (c : Prop) [Decidable c]
    (mods : List (String × HMod)) (k k2 : String) (v : HMod)
    (h : ∀ e ∈ mods, e.1 ≠ k) (hk : k2 ≠ k) :
    ∀ e ∈ condSet c mods k2 v, e.1 ≠ k := by
  unfold condSet
  split
  · exact noKey_modsSet mods k k2 v h hk
  · exact h

/-- Setting a key other than "Picada de Ekans" preserves the bite-expiry
bound. -/
theorem biteExpiring_modsSet (mods : List (String × HMod)) (k2 : String)
    (v : HMod) (h : biteExpiring mods) (hk : k2 ≠ "Picada de Ekans") :
    biteExpiring (modsSet mods k2 v) := by
  intro e he hkey
  unfold modsSet at he
  split at he
  · obtain ⟨e0, he0, heq⟩ := List.mem_map.mp he
    by_cases h0 : e0.1 == k2
    · rw [if_pos h0] at heq
      rw [← heq] at hkey
      exact absurd hkey hk
    · rw [if_neg h0] at heq
      rw [← heq] at hkey ⊢
      exact h e0 he0 hkey
  · rcases List.mem_append.mp he with hmem | hmem
    · exact h e hmem hkey
    · simp at hmem
      subst hmem
      exact absurd hkey hk

/-- Writing the bite modifier itself — always `timed (-20) 1` — preserves
the bite-expiry bound. -/
theorem biteExpiring_modsSet_bite (mods : List (String × HMod))
    (h : biteExpiring mods) :
    biteExpiring (modsSet mods "Picada de Ekans" (HMod.timed (-20) 1)) := by
  intro e he hkey
  unfold modsSet at he
  split at he
  · obtain ⟨e0, he0, heq⟩ := List.mem_map.mp he
    by_cases h0 : e0.1 == "Picada de Ekans"
    · rw [if_pos h0] at heq
      rw [← heq]
      exact ⟨-20, 1, rfl, by norm_num⟩
    · rw [if_neg h0] at heq
      rw [← heq] at hkey ⊢
      exact h e0 he0 hkey
  · rcases List.mem_append.mp he with hmem | hmem
    · exact h e hmem hkey
    · simp at hmem
      subst hmem
      exact ⟨-20, 1, rfl, by norm_num⟩

/-- The decay step drops every bite entry in its final day (`d > 1` fails),
so a map satisfying the bite-expiry bound decays to one with no bite key at
all. -/
theorem noKey_decayMods_expiring (mods : List (String × HMod))
    (h : biteExpiring mods) :
    ∀ e ∈ decayMods mods, e.1 ≠ "Picada de Ekans" := by
  unfold decayMods
  suffices hgen : ∀ (ms : List (String × HMod)) (init : List (String × HMod)),
      biteExpiring ms → (∀ e ∈ init, e.1 ≠ "Picada de Ekans") →
      ∀ e ∈ ms.foldl (fun acc (e : String × HMod) =>
        match e.2 with
        | .timed v d =>
          if d > 1 then acc ++ [(e.1, HMod.timed v (d - 1))] else acc
        | .flat v =>
          if e.1 = "Bônus de Tratador" then acc ++ [(e.1, HMod.flat v)]
          else acc) init, e.1 ≠ "Picada de Ekans" by
    exact hgen mods [] h (by simp)
  intro ms
  induction ms with
  | nil => intro init _ hinit; simpa using hinit
  | cons e rest ih =>
    intro init hms hinit
    rw [List.foldl_cons]
    refine ih _ (fun e2 he2 => hms e2 (List.mem_cons_of_mem e he2)) ?_
    cases hm : e.2 with
    | flat v =>
      simp only [hm]
      by_cases hbt : e.1 = "Bônus de Tratador"
      · rw [if_pos hbt]
        intro e2 he2
        rcases List.mem_append.mp he2 with hmem | hmem
        · exact hinit e2 hmem
        · simp at hmem
          subst hmem
          rw [hbt]
          decide
      · rw [if_neg hbt]
        exact hinit
    | timed v d =>
      simp only [hm]
      by_cases hd : d > 1
      · rw [if_pos hd]
        intro e2 he2
        rcases List.mem_append.mp he2 with hmem | hmem
        · exact hinit e2 hmem
        · simp at hmem
          subst hmem
          intro hkey
          obtain ⟨v2, d2, hv, hd2⟩ := hms e (List.mem_cons_self e rest) hkey
          rw [hm] at hv
          injection hv with hveq hdeq
          rw [hdeq] at hd
          exact absurd hd (not_lt.mpr hd2)
      · rw [if_neg hd]
        exact hinit

theorem noKey_weatherMods (weather : Weather) (kind : String)
    (mods : List (String × HMod)) (k : String)
    (h : ∀ e ∈ mods, e.1 ≠ k)
    (hk1 : "Bônus de Chuva" ≠ k) (hk2 : "Mal-estar de Chuva" ≠ k)
    (hk3 : "Bônus de Sol Forte" ≠ k) (hk4 : "Desconforto do Sol" ≠ k)
    (hk5 : "Bônus de Tempestade" ≠ k) (hk6 : "Estresse de Tempestade" ≠ k) :
    ∀ e ∈ weatherMods weather kind mods, e.1 ≠ k := by
  cases weather with
  | clear => simpa [weatherMods] using h
  | rain =>
    simp only [weatherMods]
    exact noKey_condSet _ _ k _ _ (noKey_condSet _ _ k _ _ h hk1) hk2
  | harsh_sunlight =>
    simp only [weatherMods]
    split
    · exact noKey_modsSet mods k _ _ h hk3
    · exact noKey_modsSet mods k _ _ h hk4
  | storm =>
    simp only [weatherMods]
    split
    · exact noKey_modsSet mods k _ _ h hk5
    · exact noKey_modsSet mods k _ _ h hk6

/-- After phases 2-4, a creature whose bite entries (if any) were all in
their final day carries no "Picada de Ekans" entry at all — the decay step
dropped them — and its happiness is exactly
`clamp(50 + Σ modifiers, 0, 100)`. -/
theorem dailyModifierUpdate_spec (hp : Bool) (pc : Nat) (ht hb : Bool)
    (tb : ℚ) (wthr : Weather) (p : Pokemon)
    (h : biteExpiring p.happinessModifiers) :
    (∀ e ∈ (dailyModifierUpdate hp pc ht hb tb wthr p).happinessModifiers,
        e.1 ≠ "Picada de Ekans") ∧
      (dailyModifierUpdate hp pc ht hb tb wthr p).happiness
        = clamp (50 + modsSum
            (dailyModifierUpdate hp pc ht hb tb wthr p).happinessModifiers)
            0 100 := by
  constructor
  · unfold dailyModifierUpdate
    dsimp only
    apply noKey_weatherMods _ _ _ _ ?_ (by decide) (by decide) (by decide)
      (by decide) (by decide) (by decide)
    apply noKey_condSet _ _ _ _ _ ?_ (by decide)
    apply noKey_condSet _ _ _ _ _ ?_ (by decide)
    apply noKey_condSet _ _ _ _ _ ?_ (by decide)
    apply noKey_condSet _ _ _ _ _ ?_ (by decide)
    apply noKey_condSet _ _ _ _ _ ?_ (by decide)
    apply noKey_condSet _ _ _ _ _ ?_ (by decide)
    exact noKey_decayMods_expiring _ h
  · rfl

/-- Phase 1 for one arrival adds only "Novo Companheiro" keys, so it
preserves the bite-expiry bound. -/
theorem applyNewPokemonEvent_expiring (ps : List Pokemon) (nid : String)
    (h : ∀ p ∈ ps, biteExpiring p.happinessModifiers) :
    ∀ p ∈ applyNewPokemonEvent ps nid,
      biteExpiring p.happinessModifiers := by
  unfold applyNewPokemonEvent
  rcases hf : ps.find? (fun p => p.id == nid) with _ | newP
  · rw [hf]
    exact h
  · rw [hf]
    dsimp only
    intro p hp
    obtain ⟨p1, hp1, hpeq⟩ := List.mem_map.mp hp
    have hp1key : biteExpiring p1.happinessModifiers := by
      rcases hhome : newP.homeBuildingId with _ | home
      · rw [hhome] at hp1
        exact h p1 hp1
      · rw [hhome] at hp1
        obtain ⟨p0, hp0, hp0eq⟩ := List.mem_map.mp hp1
        have h0 := h p0 hp0
        by_cases hc : p0.homeBuildingId = some home ∧ p0.id ≠ newP.id
        · rw [if_pos hc] at hp0eq
          rw [← hp0eq]
          dsimp only
          apply biteExpiring_modsSet _ _ _ ?_ (by decide)
          by_cases hk : p0.kind = newP.kind
          · rw [if_pos hk]
            exact biteExpiring_modsSet _ _ _ h0 (by decide)
          · rw [if_neg hk]
            exact h0
        · rw [if_neg hc] at hp0eq
          rw [← hp0eq]
          exact h0
    rw [← hpeq]
    by_cases hid : p1.id == nid
    · rw [if_pos hid]
      exact hp1key
    · rw [if_neg hid]
      exact hp1key

/-- The post-pass bite preserves, for every creature, both the happiness
equation over the non-bite modifiers and the bite-expiry bound (the bite
it writes is `timed (-20) 1`). -/
theorem applyEkansBite_inv (abilities : String → Option Ability)
    (acc : List Pokemon × Rng) (eid : String)
    (hinv : ∀ p ∈ acc.1,
      p.happiness
          = clamp (50 + modsSumExcept "Picada de Ekans" p.happinessModifiers)
              0 100 ∧
        biteExpiring p.happinessModifiers) :
    ∀ p ∈ (applyEkansBite abilities acc eid).1,
      p.happiness
          = clamp (50 + modsSumExcept "Picada de Ekans" p.happinessModifiers)
              0 100 ∧
        biteExpiring p.happinessModifiers := by
  unfold applyEkansBite
  dsimp only
  rcases hf : acc.1.find? (fun p => p.id == eid) with _ | ekans
  · rw [hf]
    exact hinv
  · rw [hf]
    dsimp only
    split
    · rcases ht : acc.1.find? (fun t =>
          ["Torchic", "Combusken", "Blaziken"].contains t.kind &&
            !t.isSleeping && t.homeBuildingId == ekans.homeBuildingId)
          with _ | target
      · rw [ht]
        exact hinv
      · rw [ht]
        intro p hp
        obtain ⟨p0, hp0, hpeq⟩ := List.mem_map.mp hp
        rw [← hpeq]
        by_cases hid : p0.id == target.id
        · rw [if_pos hid]
          dsimp only
          constructor
          · rw [modsSumExcept_modsSet_self]
            exact (hinv p0 hp0).1
          · exact biteExpiring_modsSet_bite _ (hinv p0 hp0).2
        · rw [if_neg hid]
          exact hinv p0 hp0
    · exact hinv

/-- C6, amended: after the daily Well-being pass, every creature's
happiness equals `clamp(50 + Σ, 0, 100)` over all entries of its
happiness-modifier map **other than** a "Picada de Ekans" entry — the
post-pass Ekans bite adds its modifier without recomputing happiness.  In
particular happiness always lies in [0, 100] after the pass.  The
hypothesis asks only that every stored bite entry is a timed modifier in
its final day (`daysLeft ≤ 1`); a bite is always written as
`timed (-20) 1` and the conclusion re-establishes the same bound, so the
theorem applies to the pass immediately following a bite and chains across
passes from any bite-free start. -/
theorem c6_happiness_after_pass (abilities : String → Option Ability)
    (gs : GameState) (rng : Rng)
    (h : ∀ p ∈ gs.pokemons, biteExpiring p.happinessModifiers) :
    ∀ p ∈ (updatePokemonHappiness abilities gs rng).1.pokemons,
      (p.happiness
          = clamp (50 + modsSumExcept "Picada de Ekans" p.happinessModifiers)
              0 100 ∧
        0 ≤ p.happiness ∧ p.happiness ≤ 100) ∧
      biteExpiring p.happinessModifiers := by
  have hphase1 : ∀ (ids : List String) (ps : List Pokemon),
      (∀ p ∈ ps, biteExpiring p.happinessModifiers) →
      ∀ p ∈ ids.foldl applyNewPokemonEvent ps,
        biteExpiring p.happinessModifiers := by
    intro ids
    induction ids with
    | nil => intro ps hps; simpa using hps
    | cons i rest ih =>
      intro ps hps
      rw [List.foldl_cons]
      exact ih _ (applyNewPokemonEvent_expiring ps i hps)
  have hfold : ∀ (eids : List String) (acc : List Pokemon × Rng),
      (∀ p ∈ acc.1,
        p.happiness
            = clamp (50 + modsSumExcept "Picada de Ekans"
                p.happinessModifiers) 0 100 ∧
          biteExpiring p.happinessModifiers) →
      ∀ p ∈ (eids.foldl (applyEkansBite abilities) acc).1,
        p.happiness
            = clamp (50 + modsSumExcept "Picada de Ekans"
                p.happinessModifiers) 0 100 ∧
          biteExpiring p.happinessModifiers := by
    intro eids
    induction eids with
    | nil => intro acc hacc; simpa using hacc
    | cons e rest ih =>
      intro acc hacc
      rw [List.foldl_cons]
      exact ih _ (applyEkansBite_inv abilities acc e hacc)
  unfold updatePokemonHappiness
  dsimp only
  intro p hp
  have hinv2 : ∀ p2 ∈ (((gs.pokemons.filter (fun p => p.isNew)).map
        (fun p => p.id)).foldl applyNewPokemonEvent gs.pokemons).map
        (dailyModifierUpdate
          (gs.pokemons.any (fun p => PROTECTOR_TYPES.contains p.kind))
          ((gs.pokemons.filter (fun p => PEST_TYPES.contains p.kind)).length)
          (gs.pokemons.any (fun p => p.kind == "Tauros"))
          (gs.pokemons.any (fun p => p.kind == "Bouffalant"))
          (([0, 2, 4, 6, 8, 10] : List ℚ).getD gs.player.skills.tratador 0)
          gs.weatherToday),
      p2.happiness
          = clamp (50 + modsSumExcept "Picada de Ekans"
              p2.happinessModifiers) 0 100 ∧
        biteExpiring p2.happinessModifiers := by
    intro p2 hp2
    obtain ⟨p1, hp1, hpeq⟩ := List.mem_map.mp hp2
    obtain ⟨hK, hH⟩ := dailyModifierUpdate_spec _ _ _ _ _ _ p1
      (hphase1 _ _ h p1 hp1)
    rw [← hpeq]
    constructor
    · rw [modsSumExcept_eq_modsSum _ _ hK]
      exact hH
    · intro e he hkey
      exact absurd hkey (hK e he)
  have hres := hfold _ _ hinv2 p hp
  exact ⟨⟨hres.1, hres.1 ▸ (clamp_bounds _).1, hres.1 ▸ (clamp_bounds _).2⟩,
    hres.2⟩

/-- Witness for `c6_happiness_after_pass`: a lone Torchic that enters the
pass still carrying a fresh bite entry (`timed (-20) 1`) — the state left
behind by a successful bite on the previous pass; the left conjunct
discharges the bite-expiry hypothesis at that input. -/
theorem c6_happiness_after_pass_witness :
    (∀ p ∈ ({ player := {}
              world := { w := 1000, h := 1000 }
              pokemons := [{ id := "t1"
                             name := "Torchic"
                             kind := "Torchic"
                             x := 0
                             y := 0
                             isShiny := false
                             gender := Gender.male
                             happinessModifiers :=
                               [("Picada de Ekans", HMod.timed (-20) 1)]
                             isNew := false }] } : GameState).pokemons,
      biteExpiring p.happinessModifiers) ∧
    ∀ p ∈ (updatePokemonHappiness (fun _ => none)
        { player := {}
          world := { w := 1000, h := 1000 }
          pokemons := [{ id := "t1"
                         name := "Torchic"
                         kind := "Torchic"
                         x := 0
                         y := 0
                         isShiny := false
                         gender := Gender.male
                         happinessModifiers :=
                           [("Picada de Ekans", HMod.timed (-20) 1)]
                         isNew := false }] }
        []).1.pokemons,
      (p.happiness
          = clamp (50 + modsSumExcept "Picada de Ekans" p.happinessModifiers)
              0 100 ∧
        0 ≤ p.happiness ∧ p.happiness ≤ 100) ∧
      biteExpiring p.happinessModifiers :=
  ⟨by
    simp [biteExpiring]
    exact ⟨-20, 1, ⟨rfl, rfl⟩, by norm_num⟩, c6_happiness_after_pass (fun _ => none)
    { player := {}
      world := { w := 1000, h := 1000 }
      pokemons := [{ id := "t1"
                     name := "Torchic"
                     kind := "Torchic"
                     x := 0
                     y := 0
                     isShiny := false
                     gender := Gender.male
                     happinessModifiers :=
                       [("Picada de Ekans", HMod.timed (-20) 1)]
                     isNew := false }] }
    [] (by
      simp [biteExpiring]
      exact ⟨-20, 1, ⟨rfl, rfl⟩, by norm_num⟩)⟩

set_option maxHeartbeats 16000000 in
/-- C6, counterexample: with an Ekans and a Torchic sharing a coop and a
successful bite roll, the bitten Torchic ends the pass with modifiers
{Estresse de Praga: -5, Picada de Ekans: -20} but happiness 45 =
clamp(50 - 5, 0, 100): the bite modifier was added after the happiness
recomputation, so the final happiness differs from
clamp(50 + Σ all modifiers, 0, 100) = 25, refuting the claim. -/
theorem c6_counterexample :
    ((updatePokemonHappiness
          (fun k => if k = "Ekans" then
            some { biteChance := some (1/2) } else none)
          { player := {}
            world := { w := 1000, h := 1000 }
            pokemons :=
              [{ id := "e1"
                 name := "Ekans"
                 kind := "Ekans"
                 x := 0
                 y := 0
                 isShiny := false
                 gender := Gender.male
                 homeBuildingId := some "c1"
                 isNew := false },
               { id := "t1"
                 name := "Torchic"
                 kind := "Torchic"
                 x := 0
                 y := 0
                 isShiny := false
                 gender := Gender.male
                 homeBuildingId := some "c1"
                 isNew := false }] }
          [1/4]).1.pokemons
      = [{ id := "e1"
           name := "Ekans"
           kind := "Ekans"
           x := 0
           y := 0
           isShiny := false
           gender := Gender.male
           homeBuildingId := some "c1"
           happiness := 50
           happinessModifiers := []
           isNew := false },
         { id := "t1"
           name := "Torchic"
           kind := "Torchic"
           x := 0
           y := 0
           isShiny := false
           gender := Gender.male
           homeBuildingId := some "c1"
           happiness := 45
           happinessModifiers := [("Estresse de Praga", HMod.flat (-5)),
             ("Picada de Ekans", HMod.timed (-20) 1)]
           isNew := false }]) ∧
      (45 : ℚ) ≠ clamp (50 + modsSum [("Estresse de Praga", HMod.flat (-5)),
        ("Picada de Ekans", HMod.timed (-20) 1)]) 0 100 := by
  constructor
  · norm_num [updatePokemonHappiness, applyNewPokemonEvent,
      dailyModifierUpdate, decayMods, condSet, weatherMods, modsSet,
      modsSum, applyEkansBite, rnext, PROTECTOR_TYPES, PEST_TYPES,
      WATER_TYPES, FIRE_TYPES, ELECTRIC_TYPES, List.find?, HMod.value,
      clamp]
    simp
    norm_num
  · norm_num [modsSum, HMod.value, clamp]

/-! ## Theorems for C10 -/

/-- A successful `find?` splits the list into an unmatched prefix, the found
element and a suffix. -/
theorem find?_split {α : Type} (l : List α) (p : α → Bool) (a : α)
    (h : l.find? p = some a) :
    ∃ pre post, l = pre ++ a :: post ∧ ∀ x ∈ pre, p x = false := by
  induction l with
  | nil => simp [List.find?] at h
  | cons b rest ih =>
    by_cases hb : p b = true
    · rw [List.find?_cons_of_pos _ hb] at h
      obtain rfl : b = a := by injection h
      exact ⟨[], rest, rfl, by simp⟩
    · rw [List.find?_cons_of_neg _ (by simpa using hb)] at h
      obtain ⟨pre, post, hl, hpre⟩ := ih h
      refine ⟨b :: pre, post, by rw [hl, List.cons_append], ?_⟩
      intro x hx
      rcases List.mem_cons.mp hx with rfl | hx
      · simpa using hb
      · exact hpre x hx

/-- `updateFirst` on a list whose prefix has no match rewrites exactly the
first matching element. -/
theorem updateFirst_append {α : Type} (pred : α → Bool) (f : α → α)
    (pre : List α) (a : α) (post : List α)
    (hpre : ∀ x ∈ pre, pred x = false) (ha : pred a = true) :
    updateFirst pred f (pre ++ a :: post) = pre ++ f a :: post := by
  induction pre with
  | nil => simp [updateFirst, ha]
  | cons b rest ih =>
    have hb : pred b = false := hpre b (by simp)
    rw [List.cons_append, updateFirst, if_neg (by simp [hb]),
      ih (fun x hx => hpre x (by simp [hx])), List.cons_append]

/-- Deleting a key zeroes its `invGet`. -/
theorem invGet_invDelete (inv : Inventory) (k : String) :
    invGet (invDelete inv k) k = 0 := by
  unfold invGet invDelete
  rw [List.find?_eq_none.mpr]
  · rfl
  · intro e he
    have := (List.mem_filter.mp he).2
    simp only [bne_iff_ne, ne_eq] at this
    simpa using this

/-- `removeItem item 1` with at least one unit in stock succeeds and leaves
one unit less. -/
theorem removeItem_one (pl : Player) (item : String)
    (h : invGet pl.inventory item ≥ 1) :
    (pl.removeItem item 1).2 = true ∧
      invGet (pl.removeItem item 1).1.inventory item
        = invGet pl.inventory item - 1 := by
  unfold Player.removeItem
  rw [if_pos h]
  refine ⟨rfl, ?_⟩
  dsimp only
  by_cases h0 : invGet pl.inventory item - 1 ≤ 0
  · rw [if_pos h0, invGet_invDelete]
    omega
  · rw [if_neg h0, invGet_invSet_self]

/-- C10: evolving a creature with an evolution target and an evolution stone
in stock consumes exactly one stone and rewrites exactly the found creature,
updating only its `kind` (to the target), `age` (reset to 0), `maxAge`
(re-read from the lifespan table) and — only when it still equals the old
species — its display `name`; every other creature and every other field
(position, happiness, modifiers, home, `scheduledDeathHour`, …) is
untouched, so a pending scheduled death still fires at the same hour even
though evolution reset the age. -/
theorem c10_evolution_frame (evolutions : String → Option String)
    (lifespans : String → Option ℚ) (gs : GameState) (pid : String)
    (pk : Pokemon) (target : String) (currentHour : ℚ)
    (hfind : gs.pokemons.find? (fun p => p.id == pid) = some pk)
    (hevo : evolutions pk.kind = some target)
    (hstone : invGet gs.player.inventory "evolution_stone" ≥ 1) :
    invGet (handleEvolvePokemon evolutions lifespans gs pid).player.inventory
        "evolution_stone"
      = invGet gs.player.inventory "evolution_stone" - 1 ∧
    (∃ pre post,
      gs.pokemons = pre ++ pk :: post ∧
      (handleEvolvePokemon evolutions lifespans gs pid).pokemons
        = pre ++ evolvePokemonFields lifespans target pk :: post) ∧
    (evolvePokemonFields lifespans target pk).kind = target ∧
    (evolvePokemonFields lifespans target pk).age = 0 ∧
    (evolvePokemonFields lifespans target pk).maxAge
      = (lifespans target).getD 100 ∧
    (evolvePokemonFields lifespans target pk).name
      = (if pk.name = pk.kind then target else pk.name) ∧
    (evolvePokemonFields lifespans target pk).x = pk.x ∧
    (evolvePokemonFields lifespans target pk).y = pk.y ∧
    (evolvePokemonFields lifespans target pk).happiness = pk.happiness ∧
    (evolvePokemonFields lifespans target pk).happinessModifiers
      = pk.happinessModifiers ∧
    (evolvePokemonFields lifespans target pk).homeBuildingId
      = pk.homeBuildingId ∧
    (evolvePokemonFields lifespans target pk).scheduledDeathHour
      = pk.scheduledDeathHour ∧
    deathDue currentHour (evolvePokemonFields lifespans target pk)
      = deathDue currentHour pk := by
  have hb := List.find?_some hfind
  obtain ⟨pre, post, hsplit, hpre⟩ := find?_split _ _ _ hfind
  obtain ⟨hok, hinv⟩ := removeItem_one gs.player "evolution_stone" hstone
  unfold handleEvolvePokemon
  rw [hfind]
  dsimp only
  rw [hevo]
  dsimp only
  rw [hok, if_pos rfl]
  refine ⟨hinv, ⟨pre, post, hsplit, ?_⟩, rfl, rfl, rfl, rfl, rfl, rfl, rfl,
    rfl, rfl, rfl, rfl⟩
  dsimp only
  rw [hsplit]
  exact updateFirst_append _ _ pre pk post hpre hb

/-- Witness for `c10_evolution_frame`: a Pichu with a scheduled death at
hour 18, an evolution to Pikachu and two evolution stones in stock. -/
theorem c10_evolution_frame_witness :
    invGet (handleEvolvePokemon
        (fun k => if k = "Pichu" then some "Pikachu" else none)
        (fun _ => none)
        { player := { inventory := [("evolution_stone", 2)] }
          world := { w := 1000, h := 1000 }
          pokemons := [{ id := "p1", name := "Pichu", kind := "Pichu",
                         x := 100, y := 100, isShiny := false,
                         gender := Gender.male,
                         scheduledDeathHour := some 18 }] }
        "p1").player.inventory "evolution_stone"
      = invGet ({ player := { inventory := [("evolution_stone", 2)] }
                  world := { w := 1000, h := 1000 }
                  pokemons := [{ id := "p1", name := "Pichu",
                                 kind := "Pichu", x := 100, y := 100,
                                 isShiny := false, gender := Gender.male,
                                 scheduledDeathHour := some 18 }] } :
            GameState).player.inventory "evolution_stone" - 1 :=
  (c10_evolution_frame
    (fun k => if k = "Pichu" then some "Pikachu" else none) (fun _ => none)
    { player := { inventory := [("evolution_stone", 2)] }
      world := { w := 1000, h := 1000 }
      pokemons := [{ id := "p1", name := "Pichu", kind := "Pichu",
                     x := 100, y := 100, isShiny := false,
                     gender := Gender.male,
                     scheduledDeathHour := some 18 }] }
    "p1"
    { id := "p1", name := "Pichu", kind := "Pichu", x := 100, y := 100,
      isShiny := false, gender := Gender.male,
      scheduledDeathHour := some 18 }
    "Pikachu" 12 rfl (by decide) (by decide)).1

/-! ## Theorems for C7 -/

/-- C7, amended: serializing and rehydrating with zero elapsed wall-clock
time preserves the Player, the World (with its nested Buildings and
Resources), the CropPlots and the respawn queue field-for-field, and
preserves every creature field except `isNew`, which is forced to `false`
so reloaded creatures never retrigger arrival bonuses. -/
theorem c7_roundtrip_zero_elapsed (regenPerSec now : ℚ) (gs : GameState) :
    (rehydrateGameState regenPerSec now (saveGame now gs)).player
        = gs.player ∧
    (rehydrateGameState regenPerSec now (saveGame now gs)).world = gs.world ∧
    (rehydrateGameState regenPerSec now (saveGame now gs)).cropPlots
        = gs.cropPlots ∧
    (rehydrateGameState regenPerSec now (saveGame now gs)).respawnQueue
        = gs.respawnQueue ∧
    (rehydrateGameState regenPerSec now (saveGame now gs)).pokemons
        = gs.pokemons.map (fun p => { p with isNew := false }) := by
  unfold rehydrateGameState saveGame
  dsimp only
  rw [sub_self, zero_div, max_self, if_neg (by norm_num)]
  exact ⟨rfl, rfl, rfl, rfl, rfl⟩

/-- C7, counterexample: the claim "rehydrating with zero elapsed time yields
creatures field-equivalent to the originals, with the same values for every
field" fails on any state holding a creature with `isNew = true`:
`rehydrateGameState` forces `isNew` to `false` on load. -/
theorem c7_counterexample :
    (rehydrateGameState 0 1000 (saveGame 1000
        { player := {}
          world := { w := 1000, h := 1000 }
          pokemons := [{ id := "p1", name := "Torchic", kind := "Torchic",
                         x := 0, y := 0, isShiny := false,
                         gender := Gender.male, isNew := true }] })).pokemons
      ≠ [{ id := "p1", name := "Torchic", kind := "Torchic",
           x := 0, y := 0, isShiny := false,
           gender := Gender.male, isNew := true }] := by
  unfold rehydrateGameState saveGame
  norm_num

/-! ## Theorems for C5 -/

/-- C5, counterexample: a sleeping creature with a running cooldown (5) and
action timer (2) is returned by the behavior step completely unchanged at
`dt = 1`; in particular its cooldown did not count down to
`max(0, 5 - 1) = 4`, refuting the claim that cooldown bookkeeping still
runs during sleep. -/
theorem c5_counterexample :
    (processLivingPokemon
        ⟨0, fun _ => 0, fun _ => 0, fun _ _ => 0, fun _ _ => 0⟩
        (fun _ => none) (fun _ => none)
        { world := { w := 1000, h := 1000 }, player := {} }
        { id := "p1", name := "Torchic", kind := "Torchic", x := 100,
          y := 100, isShiny := false, gender := Gender.male, cooldown := 5,
          actionTimer := some 2, isSleeping := true } 1 []).2.1
      = { id := "p1", name := "Torchic", kind := "Torchic", x := 100,
          y := 100, isShiny := false, gender := Gender.male, cooldown := 5,
          actionTimer := some 2, isSleeping := true } ∧
    (5 : ℚ) ≠ max 0 (5 - 1) := by
  constructor
  · simp [processLivingPokemon]
  · norm_num

/-- C5, amended: for every creature with `isSleeping = true`, the per-tick
behavior step is a complete no-op: the creature — including its cooldown
and action timers — the environment and the random stream are all returned
unchanged.  `if (p.isSleeping) return;` precedes even the timer
bookkeeping, so nothing counts down and nothing moves or fires during
sleep. -/
theorem c5_sleeping_step_noop (mo : MathOps)
    (abilities : String → Option PokeAbility)
    (respawnCfg : String → Option ℚ) (env : TickEnv) (p : Pokemon) (dt : ℚ)
    (rng : Rng) (h : p.isSleeping = true) :
    processLivingPokemon mo abilities respawnCfg env p dt rng
      = (env, p, rng) := by
  unfold processLivingPokemon
  rw [if_pos h]

/-- Witness for `c5_sleeping_step_noop`: a concrete sleeping creature with a
running cooldown. -/
theorem c5_sleeping_step_noop_witness :
    ({ id := "p2", name := "Pidgey", kind := "Pidgey", x := 200, y := 200,
       isShiny := false, gender := Gender.female, cooldown := 7,
       isSleeping := true } : Pokemon).isSleeping = true ∧
    processLivingPokemon
        ⟨0, fun _ => 0, fun _ => 0, fun _ _ => 0, fun _ _ => 0⟩
        (fun _ => none) (fun _ => none)
        { world := { w := 500, h := 500 }, player := {} }
        { id := "p2", name := "Pidgey", kind := "Pidgey", x := 200, y := 200,
          isShiny := false, gender := Gender.female, cooldown := 7,
          isSleeping := true } 2 []
      = ({ world := { w := 500, h := 500 }, player := {} },
         { id := "p2", name := "Pidgey", kind := "Pidgey", x := 200,
           y := 200, isShiny := false, gender := Gender.female,
           cooldown := 7, isSleeping := true }, []) :=
  ⟨rfl, c5_sleeping_step_noop
    ⟨0, fun _ => 0, fun _ => 0, fun _ _ => 0, fun _ _ => 0⟩
    (fun _ => none) (fun _ => none)
    { world := { w := 500, h := 500 }, player := {} }
    { id := "p2", name := "Pidgey", kind := "Pidgey", x := 200, y := 200,
      isShiny := false, gender := Gender.female, cooldown := 7,
      isSleeping := true } 2 [] rfl⟩

/-! ## Theorems for C9 -/

/-- A home lookup by identity fails over a structure list holding no
matching id. -/
theorem structs_find?_home_none (l : List Building) (h : Option String)
    (hfail : ∀ s ∈ l, ¬ h = some s.id) :
    l.find? (fun s => decide (h = some s.id)) = none :=
  List.find?_eq_none.mpr (fun s hs => by simpa using hfail s hs)

/-- The `s.id == hid` form of the failing lookup. -/
theorem structs_find?_id_none (l : List Building) (hid : String)
    (hfail : ∀ s ∈ l, ¬ (some hid : Option String) = some s.id) :
    l.find? (fun s => s.id == hid) = none :=
  List.find?_eq_none.mpr (fun s hs => by
    simp only [beq_iff_eq]
    intro he
    exact hfail s hs (by rw [he]))

/-- A creature whose home id matches no structure resolves to no home. -/
theorem homeOf_of_fail (w : FarmWorld) (p : Pokemon) (fl : Bool)
    (hfail : ∀ s ∈ w.structs, ¬ p.homeBuildingId = some s.id) :
    homeOf w p fl = none := by
  unfold homeOf
  rcases hh : p.homeBuildingId with _ | hid
  · rfl
  · rw [hh] at hfail
    dsimp only
    by_cases hc : hid ≠ "" ∧ fl = false
    · rw [if_pos hc]
      exact structs_find?_id_none _ _ hfail
    · rw [if_neg hc]

/-- Overwriting the home id leaves `isSleeping` untouched. -/
theorem withHome_isSleeping (h : Option String) (q : Pokemon) :
    (withHome h q).isSleeping = q.isSleeping := rfl

/-- Action-timer bookkeeping commutes with overwriting the home id and
leaves it untouched. -/
theorem actionTimerStep_rel (h : Option String) (b : Pokemon) (dt : ℚ)
    (hb : b.homeBuildingId = none) :
    actionTimerStep (withHome h b) dt = withHome h (actionTimerStep b dt) ∧
      (actionTimerStep b dt).homeBuildingId = none := by
  obtain ⟨i, n, k, x, y, sh, g, ag, ma, hbv, cd, tg, ai, ms, sl, po, ts, tt,
    atv, im, sd, tc, ah, hpp, hmm, nw⟩ := b
  dsimp only at hb
  subst hb
  unfold withHome actionTimerStep
  dsimp only
  cases atv with
  | none => exact ⟨rfl, rfl⟩
  | some t =>
    dsimp only
    split_ifs <;> exact ⟨rfl, rfl⟩

/-- The cooldown decrement commutes with overwriting the home id and leaves
it untouched. -/
theorem cooldownStep_rel (h : Option String) (b : Pokemon) (dt : ℚ)
    (hb : b.homeBuildingId = none) :
    cooldownStep (withHome h b) dt = withHome h (cooldownStep b dt) ∧
      (cooldownStep b dt).homeBuildingId = none :=
  ⟨rfl, hb⟩

/-- Target-chasing movement commutes with overwriting the home id and
leaves it untouched. -/
theorem moveStep_rel (mo : MathOps) (h : Option String) (b : Pokemon)
    (dt : ℚ) (hb : b.homeBuildingId = none) :
    moveStep mo (withHome h b) dt = withHome h (moveStep mo b dt) ∧
      (moveStep mo b dt).homeBuildingId = none := by
  obtain ⟨i, n, k, x, y, sh, g, ag, ma, hbv, cd, tg, ai, ms, sl, po, ts, tt,
    atv, im, sd, tc, ah, hpp, hmm, nw⟩ := b
  dsimp only at hb
  subst hb
  unfold withHome moveStep
  dsimp only
  cases tg with
  | none => exact ⟨rfl, rfl⟩
  | some t =>
    dsimp only
    split_ifs <;> exact ⟨rfl, rfl⟩

/-- The teleport logic commutes with overwriting the home id by one that
matches no structure, and leaves the stored home id untouched. -/
theorem teleportStep_rel (mo : MathOps) (w : FarmWorld) (h : Option String)
    (b : Pokemon) (dt : ℚ) (rng : Rng) (hb : b.homeBuildingId = none)
    (hfail : ∀ s ∈ w.structs, ¬ h = some s.id) :
    teleportStep mo w (withHome h b) dt rng
      = (withHome h (teleportStep mo w b dt rng).1,
         (teleportStep mo w b dt rng).2) ∧
      (teleportStep mo w b dt rng).1.homeBuildingId = none := by
  have hf1 : w.structs.find? (fun s => decide (h = some s.id)) = none :=
    structs_find?_home_none w.structs h hfail
  have hfF : w.structs.find? (fun s => decide False) = none :=
    List.find?_eq_none.mpr (fun s hs => by simp)
  obtain ⟨i, n, k, x, y, sh, g, ag, ma, hbv, cd, tg, ai, ms, sl, po, ts, tt,
    atv, im, sd, tc, ah, hpp, hmm, nw⟩ := b
  dsimp only at hb
  subst hb
  unfold withHome teleportStep
  dsimp only
  by_cases hk : abraFamily.contains k = true
  · simp only [if_pos hk]
    cases ts with
    | none =>
      dsimp only
      split_ifs <;> exact ⟨by trivial, by trivial⟩
    | some tstate =>
      cases tstate <;>
        dsimp only <;>
        (split_ifs <;>
          first
            | exact ⟨by trivial, by trivial⟩
            | (rw [hf1, hfF]; exact ⟨by trivial, by trivial⟩))
  · simp only [if_neg hk]
    exact ⟨by trivial, by trivial⟩

/-- One ability action commutes with overwriting the home id by one that
matches no structure, and leaves the stored home id untouched. -/
theorem abilityAction_rel (mo : MathOps) (cfg : String → Option ℚ)
    (ab : PokeAbility) (env : TickEnv) (h : Option String) (b : Pokemon)
    (rng : Rng) (hb : b.homeBuildingId = none)
    (hfail : ∀ s ∈ env.world.structs, ¬ h = some s.id) :
    abilityAction mo cfg ab env (withHome h b) rng
      = ((abilityAction mo cfg ab env b rng).1,
         withHome h (abilityAction mo cfg ab env b rng).2.1,
         (abilityAction mo cfg ab env b rng).2.2) ∧
      (abilityAction mo cfg ab env b rng).2.1.homeBuildingId = none := by
  obtain ⟨i, n, k, x, y, sh, g, ag, ma, hbv, cd, tg, ai, ms, sl, po, ts, tt,
    atv, im, sd, tc, ah, hpp, hmm, nw⟩ := b
  dsimp only at hb
  subst hb
  unfold withHome abilityAction
  dsimp only
  by_cases h1 : ab.type = "apple_eater"
  · simp only [if_pos h1]
    rcases he : extractFirst (fun r => r.type == "apple_tree")
        env.world.resources with _ | res <;>
      simp only [he] <;> exact ⟨by trivial, by trivial⟩
  · simp only [if_neg h1]
    by_cases h2 : ab.type = "water_crop"
    · simp only [if_pos h2]
      rcases he : findClosestPlotIdx mo x y
          (fun plot => plot.state == CropState.growing && !plot.isWatered)
          env.cropPlots with _ | idx <;>
        simp only [he] <;> exact ⟨by trivial, by trivial⟩
    · simp only [if_neg h2]
      by_cases h3 : ab.type = "fertilize_crop"
      · simp only [if_pos h3]
        rcases he : findClosestPlotIdx mo x y
            (fun plot => plot.state == CropState.growing && !plot.fertilized)
            env.cropPlots with _ | idx <;>
          simp only [he] <;> exact ⟨by trivial, by trivial⟩
      · simp only [if_neg h3]
        by_cases h4 : ab.type = "harvest_apple_tree"
        · simp only [if_pos h4]
          rcases he : extractFirst (fun r => r.type == "apple_tree")
              env.world.resources with _ | res <;>
            simp only [he] <;> exact ⟨by trivial, by trivial⟩
        · simp only [if_neg h4]
          by_cases h5 : ab.type = "harvest_plant"
          · simp only [if_pos h5]
            rcases he : extractFirst (fun r => r.type == "wild_plant")
                env.world.resources with _ | res <;>
              simp only [he] <;> exact ⟨by trivial, by trivial⟩
          · simp only [if_neg h5]
            by_cases h6 : ab.type = "cooldown_item"
            · simp only [if_pos h6]
              by_cases hr : (!(k == "Onix" || k == "Steelix")) = true
              · simp only [if_pos hr]
                exact ⟨by trivial, by trivial⟩
              · simp only [if_neg hr]
                cases h with
                | none => exact ⟨by trivial, by trivial⟩
                | some hid =>
                  dsimp only
                  by_cases hq : hid = ""
                  · simp only [if_pos hq]
                    exact ⟨by trivial, by trivial⟩
                  · simp only [if_neg hq]
                    rw [structs_find?_id_none env.world.structs hid hfail]
                    exact ⟨by trivial, by trivial⟩
            · simp only [if_neg h6]
              exact ⟨by trivial, by trivial⟩

/-- Overwriting the home id leaves `kind` untouched. -/
theorem withHome_kind (h : Option String) (q : Pokemon) :
    (withHome h q).kind = q.kind := rfl

/-- Overwriting the home id leaves `cooldown` untouched. -/
theorem withHome_cooldown (h : Option String) (q : Pokemon) :
    (withHome h q).cooldown = q.cooldown := rfl

/-- Overwriting the home id leaves `aiState` untouched. -/
theorem withHome_aiState (h : Option String) (q : Pokemon) :
    (withHome h q).aiState = q.aiState := rfl

/-- The ability block commutes with overwriting the home id by one that
matches no structure, and leaves the stored home id untouched. -/
theorem abilityStep_rel (mo : MathOps)
    (abilities : String → Option PokeAbility) (cfg : String → Option ℚ)
    (env : TickEnv) (h : Option String) (b : Pokemon) (rng : Rng)
    (hb : b.homeBuildingId = none)
    (hfail : ∀ s ∈ env.world.structs, ¬ h = some s.id) :
    abilityStep mo abilities cfg env (withHome h b) rng
      = ((abilityStep mo abilities cfg env b rng).1,
         withHome h (abilityStep mo abilities cfg env b rng).2.1,
         (abilityStep mo abilities cfg env b rng).2.2) ∧
      (abilityStep mo abilities cfg env b rng).2.1.homeBuildingId = none := by
  unfold abilityStep
  simp only [withHome_kind, withHome_cooldown, withHome_aiState]
  rcases hab : abilities b.kind with _ | ab <;> try simp only [hab]
  · exact ⟨by trivial, hb⟩
  · obtain ⟨hA, hA2⟩ := abilityAction_rel mo cfg ab env h b rng hb hfail
    by_cases hc : b.cooldown ≤ 0 ∧ b.aiState ≠ AiState.working
    · simp only [if_pos hc]
      rw [hA]
      dsimp only
      by_cases hd : (abilityAction mo cfg ab env b rng).2.2.2 = true
      · simp only [if_pos hd]
        exact ⟨by trivial, hA2⟩
      · simp only [if_neg hd]
        exact ⟨by trivial, hA2⟩
    · simp only [if_neg hc]
      exact ⟨by trivial, hb⟩

/-- One ability action never touches the structure list, the specials or
the world size. -/
theorem abilityAction_world_frame (mo : MathOps) (cfg : String → Option ℚ)
    (ab : PokeAbility) (env : TickEnv) (p : Pokemon) (rng : Rng) :
    (abilityAction mo cfg ab env p rng).1.world.structs = env.world.structs ∧
    (abilityAction mo cfg ab env p rng).1.world.specials
      = env.world.specials ∧
    (abilityAction mo cfg ab env p rng).1.world.w = env.world.w ∧
    (abilityAction mo cfg ab env p rng).1.world.h = env.world.h := by
  unfold abilityAction
  by_cases h1 : ab.type = "apple_eater"
  · simp only [if_pos h1]
    rcases he : extractFirst (fun r => r.type == "apple_tree")
        env.world.resources with _ | res <;>
      simp only [he] <;> exact ⟨by trivial, by trivial, by trivial, by trivial⟩
  · simp only [if_neg h1]
    by_cases h2 : ab.type = "water_crop"
    · simp only [if_pos h2]
      rcases he : findClosestPlotIdx mo p.x p.y
          (fun plot => plot.state == CropState.growing && !plot.isWatered)
          env.cropPlots with _ | idx <;>
        simp only [he] <;> exact ⟨by trivial, by trivial, by trivial, by trivial⟩
    · simp only [if_neg h2]
      by_cases h3 : ab.type = "fertilize_crop"
      · simp only [if_pos h3]
        rcases he : findClosestPlotIdx mo p.x p.y
            (fun plot => plot.state == CropState.growing && !plot.fertilized)
            env.cropPlots with _ | idx <;>
          simp only [he] <;> exact ⟨by trivial, by trivial, by trivial, by trivial⟩
      · simp only [if_neg h3]
        by_cases h4 : ab.type = "harvest_apple_tree"
        · simp only [if_pos h4]
          rcases he : extractFirst (fun r => r.type == "apple_tree")
              env.world.resources with _ | res <;>
            simp only [he] <;> exact ⟨by trivial, by trivial, by trivial, by trivial⟩
        · simp only [if_neg h4]
          by_cases h5 : ab.type = "harvest_plant"
          · simp only [if_pos h5]
            rcases he : extractFirst (fun r => r.type == "wild_plant")
                env.world.resources with _ | res <;>
              simp only [he] <;> exact ⟨by trivial, by trivial, by trivial, by trivial⟩
          · simp only [if_neg h5]
            by_cases h6 : ab.type = "cooldown_item"
            · simp only [if_pos h6]
              by_cases hr : (!(p.kind == "Onix" || p.kind == "Steelix"))
                  = true
              · simp only [if_pos hr]
                exact ⟨by trivial, by trivial, by trivial, by trivial⟩
              · simp only [if_neg hr]
                rcases hh : p.homeBuildingId with _ | hid
                · exact ⟨by trivial, by trivial, by trivial, by trivial⟩
                · dsimp only
                  by_cases hq : hid = ""
                  · simp only [if_pos hq]
                    exact ⟨by trivial, by trivial, by trivial, by trivial⟩
                  · simp only [if_neg hq]
                    rcases hfind : env.world.structs.find?
                        (fun s => s.id == hid) with _ | home <;>
                      simp only [hfind]
                    · exact ⟨by trivial, by trivial, by trivial, by trivial⟩
                    · split_ifs <;> exact ⟨by trivial, by trivial, by trivial, by trivial⟩
            · simp only [if_neg h6]
              exact ⟨by trivial, by trivial, by trivial, by trivial⟩

/-- The ability block never touches the structure list, the specials or the
world size. -/
theorem abilityStep_world_frame (mo : MathOps)
    (abilities : String → Option PokeAbility) (cfg : String → Option ℚ)
    (env : TickEnv) (p : Pokemon) (rng : Rng) :
    (abilityStep mo abilities cfg env p rng).1.world.structs
      = env.world.structs ∧
    (abilityStep mo abilities cfg env p rng).1.world.specials
      = env.world.specials ∧
    (abilityStep mo abilities cfg env p rng).1.world.w = env.world.w ∧
    (abilityStep mo abilities cfg env p rng).1.world.h = env.world.h := by
  unfold abilityStep
  dsimp only
  rcases hab : abilities p.kind with _ | ab <;> try simp only [hab]
  · exact ⟨by trivial, by trivial, by trivial, by trivial⟩
  · try dsimp only
    by_cases hc : p.cooldown ≤ 0 ∧ p.aiState ≠ AiState.working
    · rw [if_pos hc]
      obtain ⟨hs1, hs2, hs3, hs4⟩ := abilityAction_world_frame mo cfg ab env p rng
      by_cases hd : (abilityAction mo cfg ab env p rng).2.2.2 = true
      · rw [if_pos hd]
        exact ⟨hs1, hs2, hs3, hs4⟩
      · rw [if_neg hd]
        exact ⟨hs1, hs2, hs3, hs4⟩
    · rw [if_neg hc]
      exact ⟨by trivial, by trivial, by trivial, by trivial⟩

/-- Overwriting the home id leaves `id` untouched. -/
theorem withHome_id (h : Option String) (q : Pokemon) :
    (withHome h q).id = q.id := rfl

/-- Overwriting the home id leaves `name` untouched. -/
theorem withHome_name (h : Option String) (q : Pokemon) :
    (withHome h q).name = q.name := rfl

/-- Overwriting the home id leaves `x` untouched. -/
theorem withHome_x (h : Option String) (q : Pokemon) :
    (withHome h q).x = q.x := rfl

/-- Overwriting the home id leaves `y` untouched. -/
theorem withHome_y (h : Option String) (q : Pokemon) :
    (withHome h q).y = q.y := rfl

/-- Overwriting the home id leaves `isShiny` untouched. -/
theorem withHome_isShiny (h : Option String) (q : Pokemon) :
    (withHome h q).isShiny = q.isShiny := rfl

/-- Overwriting the home id leaves `gender` untouched. -/
theorem withHome_gender (h : Option String) (q : Pokemon) :
    (withHome h q).gender = q.gender := rfl

/-- Overwriting the home id leaves `age` untouched. -/
theorem withHome_age (h : Option String) (q : Pokemon) :
    (withHome h q).age = q.age := rfl

/-- Overwriting the home id leaves `maxAge` untouched. -/
theorem withHome_maxAge (h : Option String) (q : Pokemon) :
    (withHome h q).maxAge = q.maxAge := rfl

/-- Overwriting the home id leaves `target` untouched. -/
theorem withHome_target (h : Option String) (q : Pokemon) :
    (withHome h q).target = q.target := rfl

/-- Overwriting the home id leaves `moveSpeed` untouched. -/
theorem withHome_moveSpeed (h : Option String) (q : Pokemon) :
    (withHome h q).moveSpeed = q.moveSpeed := rfl

/-- Overwriting the home id leaves `Poder` untouched. -/
theorem withHome_Poder (h : Option String) (q : Pokemon) :
    (withHome h q).Poder = q.Poder := rfl

/-- Overwriting the home id leaves `teleportState` untouched. -/
theorem withHome_teleportState (h : Option String) (q : Pokemon) :
    (withHome h q).teleportState = q.teleportState := rfl

/-- Overwriting the home id leaves `teleportTimer` untouched. -/
theorem withHome_teleportTimer (h : Option String) (q : Pokemon) :
    (withHome h q).teleportTimer = q.teleportTimer := rfl

/-- Overwriting the home id leaves `actionTimer` untouched. -/
theorem withHome_actionTimer (h : Option String) (q : Pokemon) :
    (withHome h q).actionTimer = q.actionTimer := rfl

/-- Overwriting the home id leaves `isImmortal` untouched. -/
theorem withHome_isImmortal (h : Option String) (q : Pokemon) :
    (withHome h q).isImmortal = q.isImmortal := rfl

/-- Overwriting the home id leaves `scheduledDeathHour` untouched. -/
theorem withHome_scheduledDeathHour (h : Option String) (q : Pokemon) :
    (withHome h q).scheduledDeathHour = q.scheduledDeathHour := rfl

/-- Overwriting the home id leaves `torchicsCured` untouched. -/
theorem withHome_torchicsCured (h : Option String) (q : Pokemon) :
    (withHome h q).torchicsCured = q.torchicsCured := rfl

/-- Overwriting the home id leaves `applesHarvested` untouched. -/
theorem withHome_applesHarvested (h : Option String) (q : Pokemon) :
    (withHome h q).applesHarvested = q.applesHarvested := rfl

/-- Overwriting the home id leaves `happiness` untouched. -/
theorem withHome_happiness (h : Option String) (q : Pokemon) :
    (withHome h q).happiness = q.happiness := rfl

/-- Overwriting the home id leaves `happinessModifiers` untouched. -/
theorem withHome_happinessModifiers (h : Option String) (q : Pokemon) :
    (withHome h q).happinessModifiers = q.happinessModifiers := rfl

/-- Overwriting the home id leaves `isNew` untouched. -/
theorem withHome_isNew (h : Option String) (q : Pokemon) :
    (withHome h q).isNew = q.isNew := rfl

/-- Overwriting the home id stores exactly the new id. -/
theorem withHome_homeBuildingId (h : Option String) (q : Pokemon) :
    (withHome h q).homeBuildingId = h := rfl

/-- A home overwritten by an id matching no structure resolves to no
home. -/
theorem homeOf_withHome_none (w : FarmWorld) (q : Pokemon)
    (h : Option String) (fl : Bool)
    (hfail : ∀ s ∈ w.structs, ¬ h = some s.id) :
    homeOf w (withHome h q) fl = none :=
  homeOf_of_fail w (withHome h q) fl (fun s hs => hfail s hs)

/-- A creature with no stored home resolves to no home. -/
theorem homeOf_none (w : FarmWorld) (q : Pokemon) (fl : Bool)
    (hb : q.homeBuildingId = none) : homeOf w q fl = none :=
  homeOf_of_fail w q fl (fun s hs => by rw [hb]; simp)

/-- The confinement block commutes with overwriting the home id by one that
matches no structure, and leaves the stored home id untouched. -/
theorem clampStep_rel (mo : MathOps) (w : FarmWorld) (h : Option String)
    (b : Pokemon) (rng : Rng) (hb : b.homeBuildingId = none)
    (hfail : ∀ s ∈ w.structs, ¬ h = some s.id) :
    clampStep mo w (withHome h b) rng
      = (withHome h (clampStep mo w b rng).1, (clampStep mo w b rng).2) ∧
      (clampStep mo w b rng).1.homeBuildingId = none := by
  unfold clampStep
  simp only [withHome_id, withHome_name, withHome_kind, withHome_x,
    withHome_y, withHome_isShiny, withHome_gender, withHome_age,
    withHome_maxAge, withHome_cooldown, withHome_target, withHome_aiState,
    withHome_moveSpeed, withHome_isSleeping, withHome_Poder,
    withHome_teleportState, withHome_teleportTimer, withHome_actionTimer,
    withHome_isImmortal, withHome_scheduledDeathHour, withHome_torchicsCured,
    withHome_applesHarvested, withHome_happiness,
    withHome_happinessModifiers, withHome_isNew, withHome_homeBuildingId]
  rw [homeOf_withHome_none w b h _ hfail, homeOf_none w b _ hb]
  dsimp only
  by_cases hriv : riverPokemonKinds.contains b.kind = true
  · simp only [if_pos hriv]
    rcases hr : w.specials.find? (fun s => s.type == "river") with _ | riv <;>
      try simp only [hr]
    · exact ⟨by trivial, hb⟩
    · try dsimp only
      by_cases hinp : ¬ isPointInPolygon ⟨b.x, b.y⟩ riv.points
      · simp only [if_pos hinp]
        rcases hg : (getRandomPointInRiver w rng).1 with _ | t <;>
          try simp only [hg]
        · exact ⟨by trivial, hb⟩
        · exact ⟨by trivial, hb⟩
      · simp only [if_neg hinp]
        exact ⟨by trivial, hb⟩
  · simp only [if_neg hriv]
    split_ifs <;> exact ⟨by trivial, hb⟩

/-- The idle-wander block commutes with overwriting the home id by one that
matches no structure, and leaves the stored home id untouched. -/
theorem wanderStep_rel (mo : MathOps) (w : FarmWorld) (h : Option String)
    (b : Pokemon) (rng : Rng) (hb : b.homeBuildingId = none)
    (hfail : ∀ s ∈ w.structs, ¬ h = some s.id) :
    wanderStep mo w (withHome h b) rng
      = (withHome h (wanderStep mo w b rng).1, (wanderStep mo w b rng).2) ∧
      (wanderStep mo w b rng).1.homeBuildingId = none := by
  unfold wanderStep
  simp only [withHome_id, withHome_name, withHome_kind, withHome_x,
    withHome_y, withHome_isShiny, withHome_gender, withHome_age,
    withHome_maxAge, withHome_cooldown, withHome_target, withHome_aiState,
    withHome_moveSpeed, withHome_isSleeping, withHome_Poder,
    withHome_teleportState, withHome_teleportTimer, withHome_actionTimer,
    withHome_isImmortal, withHome_scheduledDeathHour, withHome_torchicsCured,
    withHome_applesHarvested, withHome_happiness,
    withHome_happinessModifiers, withHome_isNew, withHome_homeBuildingId]
  by_cases hai : b.aiState = AiState.idle
  case neg =>
    simp only [if_neg hai]
    exact ⟨by trivial, hb⟩
  case pos =>
    simp only [if_pos hai]
    rw [homeOf_withHome_none w b h _ hfail, homeOf_none w b _ hb]
    dsimp only
    by_cases hq : (rnext rng).1 < 1/100
    case neg =>
      simp only [if_neg hq]
      exact ⟨by trivial, hb⟩
    case pos =>
      simp only [if_pos hq]
      by_cases hpat : housePatrolKinds.contains b.kind = true
      · simp only [if_pos hpat]
        rcases hh : w.structs.find? (fun s => s.type == "house")
            with _ | house <;> try simp only [hh]
        · exact ⟨by trivial, hb⟩
        · try dsimp only
          rcases hp2 : (patrolSearch mo w house 10 (rnext rng).2).1
              with _ | t <;> try simp only [hp2]
          · exact ⟨by trivial, hb⟩
          · exact ⟨by trivial, hb⟩
      · simp only [if_neg hpat]
        by_cases hriv : riverPokemonKinds.contains b.kind = true
        · simp only [if_pos hriv]
          rcases hg : (getRandomPointInRiver w (rnext rng).2).1
              with _ | t <;> try simp only [hg]
          · exact ⟨by trivial, hb⟩
          · exact ⟨by trivial, hb⟩
        · simp only [if_neg hriv]
          rcases hws : (wanderSearch w b.x b.y
              (flyingPokemonKinds.contains b.kind) 10 (rnext rng).2).1
              with _ | t <;> try simp only [hws]
          · exact ⟨by trivial, hb⟩
          · exact ⟨by trivial, hb⟩

/-- The whole per-tick behavior step commutes with overwriting the home id
by one that matches no structure. -/
theorem processLiving_rel (mo : MathOps)
    (abilities : String → Option PokeAbility)
    (respawnCfg : String → Option ℚ) (env : TickEnv) (h : Option String)
    (b : Pokemon) (dt : ℚ) (rng : Rng) (hb : b.homeBuildingId = none)
    (hfail : ∀ s ∈ env.world.structs, ¬ h = some s.id) :
    processLivingPokemon mo abilities respawnCfg env (withHome h b) dt rng
      = ((processLivingPokemon mo abilities respawnCfg env b dt rng).1,
         withHome h
           (processLivingPokemon mo abilities respawnCfg env b dt rng).2.1,
         (processLivingPokemon mo abilities respawnCfg env b dt rng).2.2) := by
  unfold processLivingPokemon
  simp only [withHome_isSleeping]
  by_cases hs : b.isSleeping = true
  · simp only [if_pos hs]
  · simp only [if_neg hs]
    try dsimp only
    obtain ⟨h1, h1b⟩ := actionTimerStep_rel h b dt hb
    rw [h1]
    obtain ⟨h2, h2b⟩ := teleportStep_rel mo env.world h
      (actionTimerStep b dt) dt rng h1b hfail
    rw [h2]
    obtain ⟨T, hT⟩ : ∃ t,
        teleportStep mo env.world (actionTimerStep b dt) dt rng = t :=
      ⟨_, rfl⟩
    rw [hT] at h2b ⊢
    dsimp only
    obtain ⟨h3, h3b⟩ := cooldownStep_rel h T.1 dt h2b
    rw [h3]
    obtain ⟨h4, h4b⟩ := abilityStep_rel mo abilities respawnCfg env h
      (cooldownStep T.1 dt) T.2 h3b hfail
    rw [h4]
    obtain ⟨A, hA⟩ : ∃ t,
        abilityStep mo abilities respawnCfg env (cooldownStep T.1 dt) T.2
          = t :=
      ⟨_, rfl⟩
    have hstructs : A.1.world.structs = env.world.structs := by
      rw [← hA]
      exact (abilityStep_world_frame mo abilities respawnCfg env
        (cooldownStep T.1 dt) T.2).1
    rw [hA] at h4b ⊢
    dsimp only
    have hfailA : ∀ s ∈ A.1.world.structs, ¬ h = some s.id := by
      rw [hstructs]
      exact hfail
    obtain ⟨h5, h5b⟩ := moveStep_rel mo h A.2.1 dt h4b
    rw [h5]
    obtain ⟨h6, h6b⟩ := clampStep_rel mo A.1.world h (moveStep mo A.2.1 dt)
      A.2.2 h5b hfailA
    rw [h6]
    obtain ⟨C, hC⟩ : ∃ t,
        clampStep mo A.1.world (moveStep mo A.2.1 dt) A.2.2 = t :=
      ⟨_, rfl⟩
    rw [hC] at h6b ⊢
    dsimp only
    obtain ⟨h7, h7b⟩ := wanderStep_rel mo A.1.world h C.1 C.2 h6b hfailA
    rw [h7]

/-- C9: a creature whose `homeBuildingId` refers to no existing building is
treated by the per-tick behavior step exactly as a homeless creature: the
step returns the same environment, the same random stream and the same
creature — with only the dangling id itself still stored — as the same
creature with `homeBuildingId = null` would get, so it is confined by the
world-bounds clamping and wanders as a homeless creature does; being a
total function of the embedding, the step always completes, so the dangling
id is never a crash condition. -/
theorem c9_dangling_home_is_homeless (mo : MathOps)
    (abilities : String → Option PokeAbility)
    (respawnCfg : String → Option ℚ) (env : TickEnv) (p : Pokemon)
    (dt : ℚ) (rng : Rng) (hid : String)
    (hhid : p.homeBuildingId = some hid)
    (hdangling : ∀ s ∈ env.world.structs, s.id ≠ hid) :
    processLivingPokemon mo abilities respawnCfg env p dt rng
      = ((processLivingPokemon mo abilities respawnCfg env
            (withHome none p) dt rng).1,
         withHome (some hid)
           (processLivingPokemon mo abilities respawnCfg env
             (withHome none p) dt rng).2.1,
         (processLivingPokemon mo abilities respawnCfg env
           (withHome none p) dt rng).2.2) := by
  have hp : p = withHome (some hid) (withHome none p) := by
    rw [← hhid]; rfl
  have hfail : ∀ s ∈ env.world.structs,
      ¬ (some hid : Option String) = some s.id := by
    intro s hs heq
    apply hdangling s hs
    injection heq with h2
    exact h2.symm
  conv_lhs => rw [hp]
  exact processLiving_rel mo abilities respawnCfg env (some hid)
    (withHome none p) dt rng rfl hfail

/-- Witness for `c9_dangling_home_is_homeless`: a creature pointing at the
id `"ghost"` over an empty structure list. -/
theorem c9_dangling_home_is_homeless_witness :
    ({ id := "p4", name := "Eevee", kind := "Eevee", x := 300, y := 300,
       isShiny := false, gender := Gender.female,
       homeBuildingId := some "ghost" } : Pokemon).homeBuildingId
        = some "ghost" ∧
    processLivingPokemon
        ⟨0, fun _ => 0, fun _ => 0, fun _ _ => 0, fun _ _ => 0⟩
        (fun _ => none) (fun _ => none)
        { world := { w := 800, h := 800 }, player := {} }
        { id := "p4", name := "Eevee", kind := "Eevee", x := 300, y := 300,
          isShiny := false, gender := Gender.female,
          homeBuildingId := some "ghost" } 1 [1/2]
      = ((processLivingPokemon
            ⟨0, fun _ => 0, fun _ => 0, fun _ _ => 0, fun _ _ => 0⟩
            (fun _ => none) (fun _ => none)
            { world := { w := 800, h := 800 }, player := {} }
            (withHome none
              { id := "p4", name := "Eevee", kind := "Eevee", x := 300,
                y := 300, isShiny := false, gender := Gender.female,
                homeBuildingId := some "ghost" }) 1 [1/2]).1,
         withHome (some "ghost")
           (processLivingPokemon
             ⟨0, fun _ => 0, fun _ => 0, fun _ _ => 0, fun _ _ => 0⟩
             (fun _ => none) (fun _ => none)
             { world := { w := 800, h := 800 }, player := {} }
             (withHome none
               { id := "p4", name := "Eevee", kind := "Eevee", x := 300,
                 y := 300, isShiny := false, gender := Gender.female,
                 homeBuildingId := some "ghost" }) 1 [1/2]).2.1,
         (processLivingPokemon
           ⟨0, fun _ => 0, fun _ => 0, fun _ _ => 0, fun _ _ => 0⟩
           (fun _ => none) (fun _ => none)
           { world := { w := 800, h := 800 }, player := {} }
           (withHome none
             { id := "p4", name := "Eevee", kind := "Eevee", x := 300,
               y := 300, isShiny := false, gender := Gender.female,
               homeBuildingId := some "ghost" }) 1 [1/2]).2.2) :=
  ⟨rfl, c9_dangling_home_is_homeless
    ⟨0, fun _ => 0, fun _ => 0, fun _ _ => 0, fun _ _ => 0⟩
    (fun _ => none) (fun _ => none)
    { world := { w := 800, h := 800 }, player := {} }
    { id := "p4", name := "Eevee", kind := "Eevee", x := 300, y := 300,
      isShiny := false, gender := Gender.female,
      homeBuildingId := some "ghost" } 1 [1/2] "ghost" rfl
    (by intro s hs; simp at hs)⟩

end PokeFarm
